import Mathlib

/-!
# Verification of the ST-ImageGen prompt/response pipeline

A shallow embedding, in Lean 4, of the pure core of the ST-ImageGen
SillyTavern extension (message post-processing, message cleaning, keyword
matching, lorebook selection, prompt assembly, preset parsing, image-response
normalization, and the single-flight generation guard), together with
theorems settling the specification claims about these components.

Conventions used throughout:
* JavaScript strings are modelled as `List Char` (`Chars`); the helpers in
  the first section mirror the JS string primitives used by the source
  (`includes`, `startsWith`, `split`, `trim`, `toLowerCase`, ...).
* JS `undefined` is modelled as `Option.none`; JS `null` gets an explicit
  constructor where the distinction matters.
* Fallible JS code (code that can throw) is embedded as `Except String α`;
  an uncaught exception is `.error msg`.
* The host regular-expression engine (`new RegExp`) is an external
  collaborator: its compilation step can throw on an invalid pattern, so it
  is modelled as an explicit parameter of type `RegexEngine` whose
  `compile` returns `Except`.  All fixed regex literals appearing in the
  source are implemented concretely.
-/

namespace STImageGen

/-- JS strings as character lists. -/
abbrev Chars := List Char

/-- JS `a || b` on numbers whose only relevant falsy value is `0`
(`scanDepth`, `maxEntries`, `maxTokens` are non-negative numbers). -/
def jsOrNat (a b : Nat) : Nat := if a = 0 then b else a

/-- `s.startsWith(p)` on character lists. -/
def startsWithL : Chars → Chars → Bool
  | _, [] => true
  | [], _ :: _ => false
  | c :: cs, p :: ps => c == p && startsWithL cs ps

/-- `s.includes(p)` on character lists (true for the empty pattern, as in JS). -/
def containsL : Chars → Chars → Bool
  | [], pat => pat.isEmpty
  | c :: cs, pat => startsWithL (c :: cs) pat || containsL cs pat

/-- `s.endsWith(p)` on character lists. -/
def endsWithL (s p : Chars) : Bool := startsWithL s.reverse p.reverse

/-- ASCII lower-casing of one character, the fragment of JS `toLowerCase`
exercised by the source's inputs. -/
def jsToLowerChar (c : Char) : Char := c.toLower

/-- `s.toLowerCase()` (ASCII fragment). -/
def toLowerL (s : Chars) : Chars := s.map jsToLowerChar

/-- Case-insensitive `startsWith`, used to state prefix facts about values
matched by case-insensitive regexes. -/
def startsWithCI (s p : Chars) : Bool := startsWithL (toLowerL s) (toLowerL p)

/-- The whitespace class used by JS `trim` / `\s` (common code points). -/
def isJsWhitespace (c : Char) : Bool :=
  c == ' ' || c == '\t' || c == '\n' || c == '\r' ||
  c == '\x0b' || c == '\x0c' || c == ' '

/-- `s.trim()` on character lists. -/
def trimL (s : Chars) : Chars :=
  ((s.dropWhile isJsWhitespace).reverse.dropWhile isJsWhitespace).reverse

/-- `s.split(sep)` for a single-character separator (used with `'\n'`). -/
def splitCharL (sep : Char) : Chars → List Chars
  | [] => [[]]
  | c :: cs =>
    let rest := splitCharL sep cs
    if c == sep then [] :: rest
    else match rest with
      | [] => [[c]]
      | r :: rs => (c :: r) :: rs

/-- JS word character (`\w` = `[A-Za-z0-9_]`). -/
def isWordChar (c : Char) : Bool :=
  ('a' ≤ c && c ≤ 'z') || ('A' ≤ c && c ≤ 'Z') || ('0' ≤ c && c ≤ '9') || c == '_'

/-! ## `applyPostProcessing` (src/presets.js, lines 233-266)

Message contents are either a plain string or a multimodal part list; the
post-processing transform only inspects the `role` field. -/

/-- One element of a multimodal message content array. -/
inductive ContentPart where
  | textPart (text : String)
  | imagePart (url : String)
deriving DecidableEq, Repr

/-- A message content: plain string or multimodal part list. -/
inductive MsgContent where
  | text (s : String)
  | parts (ps : List ContentPart)
deriving DecidableEq, Repr

/-- A role-tagged chat message. -/
structure ChatMsg where
  role : String
  content : MsgContent
deriving DecidableEq, Repr

/-- The `'semi-strict'` per-message rewrite: a `system` message becomes a
`user` message with the same content; all others are returned unchanged. -/
def semiStrictMap (m : ChatMsg) : ChatMsg :=
  if m.role == "system" then { role := "user", content := m.content } else m

/-- The `'strict'` pass: the first `system` message is kept, each later
`system` message becomes `user`; the boolean accumulator mirrors the
source's `foundFirstSystem` closure variable. -/
def strictGo (foundFirstSystem : Bool) : List ChatMsg → List ChatMsg
  | [] => []
  | m :: rest =>
    if m.role == "system" then
      if foundFirstSystem then
        { role := "user", content := m.content } :: strictGo true rest
      else
        m :: strictGo true rest
    else
      m :: strictGo foundFirstSystem rest

/-- `applyPostProcessing(messages, mode)`: role-coercion compatibility
transform (src/presets.js lines 233-266). -/
def applyPostProcessing (messages : List ChatMsg) (mode : String) : List ChatMsg :=
  if messages.isEmpty || mode == "none" then messages
  else if mode == "semi-strict" then messages.map semiStrictMap
  else if mode == "strict" then strictGo false messages
  else messages

/-- Specification predicate for C9: the message-level frame relation of the
post-processing transform. -/
def postRel (m r : ChatMsg) : Prop :=
  r.content = m.content ∧
  (r.role = m.role ∨ (m.role = "system" ∧ r.role = "user")) ∧
  (m.role ≠ "system" → r = m)

/-! ## `matchKeyword` (src/ui.js lorebook section, lines 348-384)

The host regex engine (`new RegExp(pattern, flags)`) is an external
collaborator whose construction can throw on an invalid pattern; it is a
parameter.  The fixed regex literal `^\/(.+?)\/([gimsuy]*)$` used to detect
`/pattern/flags` keywords is implemented concretely below. -/

/-- The host regular-expression engine.  `compile body flags` models
`new RegExp(body, flags)` followed by `.test`: a thrown `SyntaxError` is
`.error`, a successful construction yields the test function. -/
structure RegexEngine where
  compile : Chars → Chars → Except String (Chars → Bool)

/-- One of the flag characters accepted by `[gimsuy]*`. -/
def regexFlagChar (c : Char) : Bool :=
  c == 'g' || c == 'i' || c == 'm' || c == 's' || c == 'u' || c == 'y'

/-- Scanner for `^\/(.+?)\/([gimsuy]*)$` after the leading `/`: the lazy
`(.+?)` body (nonempty, `.` does not cross a newline) ends at the first `/`
whose remainder consists solely of flag characters; otherwise that `/` is
consumed by the body and scanning continues. -/
def parseRegexBody (acc : Chars) : Chars → Option (Chars × Chars)
  | [] => none
  | c :: rest =>
    if c == '\n' then none
    else if c == '/' && !acc.isEmpty && rest.all regexFlagChar then
      some (acc.reverse, rest)
    else parseRegexBody (c :: acc) rest

/-- `keyword.match(/^\/(.+?)\/([gimsuy]*)$/)`: `some (body, flags)` when the
keyword is regex-delimited. -/
def parseRegexKeyword : Chars → Option (Chars × Chars)
  | '/' :: rest => parseRegexBody [] rest
  | _ => none

/-- `flags` with `i` force-added when the caller is case-insensitive and the
pattern did not already carry it (source lines 355-358). -/
def effectiveFlags (caseSensitive : Bool) (flags : Chars) : Chars :=
  if !caseSensitive && !flags.contains 'i' then flags ++ ['i'] else flags

/-- `s[i]` is a `\w` character (out of range counts as non-word). -/
def wordCharAt (s : Chars) (i : Nat) : Bool :=
  match s[i]? with
  | some c => isWordChar c
  | none => false

/-- JS `\b` assertion at position `i` of `s`. -/
def wordBoundaryAt (s : Chars) (i : Nat) : Bool :=
  if i = 0 then wordCharAt s 0 else wordCharAt s (i - 1) != wordCharAt s i

/-- Case fold used when the regex `i` flag is present. -/
def foldCI (ci : Bool) (s : Chars) : Chars := if ci then toLowerL s else s

/-- Semantics of `new RegExp('\\b' + escaped(keyword) + '\\b', iFlag).test(text)`:
since the keyword is regex-escaped it matches only literally, so the test
succeeds iff the keyword occurs in the text (case-folded under the `i` flag)
with `\b` boundaries on both sides. -/
def wordBoundaryLiteralTest (keyword text : Chars) (iFlag : Bool) : Bool :=
  (List.range (text.length + 1)).any fun i =>
    startsWithL (foldCI iFlag (text.drop i)) (foldCI iFlag keyword) &&
    wordBoundaryAt text i && wordBoundaryAt text (i + keyword.length)

/-- `matchKeyword(keyword, text, caseSensitive, matchWholeWords)` embedded
with the possibility of a host exception made explicit (`Except`); the
source's `try`/`catch` around regex construction appears as the
`.error _ => .ok false` arm. -/
def matchKeyword (engine : RegexEngine) (keyword text : Chars)
    (caseSensitive matchWholeWords : Bool) : Except String Bool :=
  if keyword.isEmpty || text.isEmpty then .ok false
  else
    match parseRegexKeyword keyword with
    | some (body, flags0) =>
      match engine.compile body (effectiveFlags caseSensitive flags0) with
      | .error _ => .ok false
      | .ok test => .ok (test text)
    | none =>
      let searchText := if caseSensitive then text else toLowerL text
      let searchKeyword := if caseSensitive then keyword else toLowerL keyword
      if matchWholeWords then
        .ok (wordBoundaryLiteralTest searchKeyword text (!caseSensitive))
      else
        .ok (containsL searchText searchKeyword)

/-- Total version of `matchKeyword`, used by callers (the `try`/`catch`
already confines exceptions inside `matchKeyword`, see the C5 theorem). -/
def matchKeywordTotal (engine : RegexEngine) (keyword text : Chars)
    (caseSensitive matchWholeWords : Bool) : Bool :=
  if keyword.isEmpty || text.isEmpty then false
  else
    match parseRegexKeyword keyword with
    | some (body, flags0) =>
      match engine.compile body (effectiveFlags caseSensitive flags0) with
      | .error _ => false
      | .ok test => test text
    | none =>
      let searchText := if caseSensitive then text else toLowerL text
      let searchKeyword := if caseSensitive then keyword else toLowerL keyword
      if matchWholeWords then
        wordBoundaryLiteralTest searchKeyword text (!caseSensitive)
      else
        containsL searchText searchKeyword

/-! ## Lorebook selection (src/ui.js lorebook section, lines 395-553) -/

/-- A knowledge-pool entry as produced by the host's `getSortedEntries`.
JS `null` entry-level overrides are `none`; empty strings model the falsy
string fields. -/
structure LoreEntry where
  uid : Nat
  comment : String
  content : String
  key : List String
  keysecondary : List String
  selective : Bool
  selectiveLogic : Nat
  constant : Bool
  disable : Bool
  useProbability : Bool
  probability : ℚ
  caseSensitive : Option Bool
  matchWholeWords : Option Bool
  world : String
deriving DecidableEq, Repr

/-- `entryMatchesText(entry, text, caseSensitive, matchWholeWords,
includeConstant)` (source lines 395-439). -/
def entryMatchesText (engine : RegexEngine) (entry : LoreEntry) (text : Chars)
    (caseSensitive matchWholeWords includeConstant : Bool) : Bool :=
  let useCaseSensitive := entry.caseSensitive.getD caseSensitive
  let useWholeWords := entry.matchWholeWords.getD matchWholeWords
  if entry.disable then false
  else if entry.constant then includeConstant
  else if entry.key.isEmpty then false
  else
    let primaryMatch := entry.key.any fun k =>
      matchKeywordTotal engine k.data text useCaseSensitive useWholeWords
    if !primaryMatch then false
    else if entry.selective && !entry.keysecondary.isEmpty then
      let secondaryMatches := entry.keysecondary.map fun k =>
        matchKeywordTotal engine k.data text useCaseSensitive useWholeWords
      -- switch on selectiveLogic (0 AND_ANY, 1 NOT_ALL, 2 NOT_ANY, 3 AND_ALL);
      -- any other code falls through the switch and the entry matches
      match entry.selectiveLogic with
      | 0 => secondaryMatches.any id
      | 1 => !secondaryMatches.all id
      | 2 => !secondaryMatches.any id
      | 3 => secondaryMatches.all id
      | _ => true
    else true

/-- The lorebook sub-record of the extension settings. -/
structure LorebookSettings where
  enabled : Bool
  includeInPrompt : Bool
  includeConstant : Bool
  scanDepth : Nat
  maxEntries : Nat
  maxTokens : Nat
deriving DecidableEq, Repr

/-- One element of the `entries` list returned by
`getTriggeredLorebookEntries`. -/
structure TriggeredEntry where
  uid : Nat
  comment : String
  content : String
  keys : List String
  world : String
  isConstant : Bool
deriving DecidableEq, Repr

/-- The `{entries, totalTokens}` result of `getTriggeredLorebookEntries`. -/
structure LorebookResult where
  entries : List TriggeredEntry
  totalTokens : Nat
deriving DecidableEq, Repr

/-- The record pushed onto `triggeredEntries` for an accepted entry,
with the `entry.comment || ...` and `entry.world || 'Unknown'` defaults. -/
def mkTriggeredEntry (e : LoreEntry) (isConstant : Bool) : TriggeredEntry :=
  { uid := e.uid
    comment := if e.comment = "" then "Entry " ++ toString e.uid else e.comment
    content := e.content
    keys := e.key
    world := if e.world = "" then "Unknown" else e.world
    isConstant := isConstant }

/-- `Math.ceil((entry.content || '').length / 4)`. -/
def entryTokenEstimate (e : LoreEntry) : Nat := (e.content.length + 3) / 4

/-- The constant-entry loop (source lines 489-508): `break` on either
exhausted budget, push only when the token budget still fits. -/
def addConstantEntries (maxEntries maxTokens : Nat) :
    List LoreEntry → List TriggeredEntry → Nat → List TriggeredEntry × Nat
  | [], acc, totalTokens => (acc, totalTokens)
  | e :: rest, acc, totalTokens =>
    if maxEntries ≤ acc.length then (acc, totalTokens)
    else if maxTokens ≤ totalTokens then (acc, totalTokens)
    else
      let entryTokens := entryTokenEstimate e
      if totalTokens + entryTokens ≤ maxTokens then
        addConstantEntries maxEntries maxTokens rest
          (acc ++ [mkTriggeredEntry e true]) (totalTokens + entryTokens)
      else
        addConstantEntries maxEntries maxTokens rest acc totalTokens

/-- The keyword-entry loop (source lines 511-545).  `rolls` supplies the
successive values of `Math.random() * 100`; `rollIdx` counts the rolls
consumed so far (a roll is drawn only when `useProbability` holds and the
probability is below 100, as in the source). -/
def addKeywordEntries (engine : RegexEngine) (maxEntries maxTokens : Nat)
    (chatText : Chars) (caseSensitive matchWholeWords : Bool) (rolls : Nat → ℚ) :
    List LoreEntry → Nat → List TriggeredEntry → Nat → List TriggeredEntry × Nat
  | [], _, acc, totalTokens => (acc, totalTokens)
  | e :: rest, rollIdx, acc, totalTokens =>
    if maxEntries ≤ acc.length then (acc, totalTokens)
    else if maxTokens ≤ totalTokens then (acc, totalTokens)
    else if (trimL e.content.data).isEmpty then
      addKeywordEntries engine maxEntries maxTokens chatText caseSensitive
        matchWholeWords rolls rest rollIdx acc totalTokens
    else if e.disable then
      addKeywordEntries engine maxEntries maxTokens chatText caseSensitive
        matchWholeWords rolls rest rollIdx acc totalTokens
    else
      let needRoll := e.useProbability && e.probability < 100
      let rollIdx' := if needRoll then rollIdx + 1 else rollIdx
      if needRoll && decide (e.probability < rolls rollIdx) then
        addKeywordEntries engine maxEntries maxTokens chatText caseSensitive
          matchWholeWords rolls rest rollIdx' acc totalTokens
      else if entryMatchesText engine e chatText caseSensitive matchWholeWords false then
        let entryTokens := entryTokenEstimate e
        if totalTokens + entryTokens ≤ maxTokens then
          addKeywordEntries engine maxEntries maxTokens chatText caseSensitive
            matchWholeWords rolls rest rollIdx'
            (acc ++ [mkTriggeredEntry e false]) (totalTokens + entryTokens)
        else
          addKeywordEntries engine maxEntries maxTokens chatText caseSensitive
            matchWholeWords rolls rest rollIdx' acc totalTokens
      else
        addKeywordEntries engine maxEntries maxTokens chatText caseSensitive
          matchWholeWords rolls rest rollIdx' acc totalTokens

/-- `getTriggeredLorebookEntries()` (source lines 446-553).  The host
collaborators appear as parameters: the world-info depth and global
case/whole-word defaults, the sorted entry pool, the chat log (`msg.mes`
strings), and the probability-roll stream.  The surrounding `try`/`catch`
(which yields the empty result if a host call throws) is noted in C1's
theorem; the scan itself is exception-free. -/
def getTriggeredLorebookEntries (engine : RegexEngine) (settings : LorebookSettings)
    (wiDepth : Nat) (caseSensitive matchWholeWords : Bool)
    (allEntries : List LoreEntry) (chat : List String) (rolls : Nat → ℚ) :
    LorebookResult :=
  if !settings.enabled then ⟨[], 0⟩
  else if allEntries.isEmpty then ⟨[], 0⟩
  else
    let scanDepth := jsOrNat settings.scanDepth (jsOrNat wiDepth 5)
    let recentMessages := chat.drop (chat.length - scanDepth)
    let chatText := List.intercalate ['\n'] (recentMessages.map String.data)
    let maxEntries := jsOrNat settings.maxEntries 10
    let maxTokens := jsOrNat settings.maxTokens 500
    let constantEntries := allEntries.filter fun e =>
      e.constant && !e.disable && !(trimL e.content.data).isEmpty
    let keywordEntries := allEntries.filter fun e => !e.constant
    let afterConstant :=
      if settings.includeConstant then
        addConstantEntries maxEntries maxTokens constantEntries [] 0
      else ([], 0)
    let final := addKeywordEntries engine maxEntries maxTokens chatText
      caseSensitive matchWholeWords rolls keywordEntries 0
      afterConstant.1 afterConstant.2
    ⟨final.1, final.2⟩

/-! ## `cleanMessageContent` (src/character.js, lines 83-112)

The source applies, in order:
1. a loop replacing `/<span[^>]*>([\s\S]*?)<\/span>/gi` by the capture until
   a fixpoint,
2. a loop replacing `/<(?!font\b)(\w+)[^>]*>[\s\S]*?<\/\1>/gi` by the empty
   string until a fixpoint,
3. one global pass of `/<(?!\/?font\b)[^>]+>/gi` replaced by the empty string,
4. one global pass of `/\n{4,}/g` replaced by three newlines, and
5. `trim()`.

Each regex is implemented concretely (leftmost, non-overlapping global
replacement; greedy/lazy backtracking as JS performs it).  The `while`
loops are modelled with a fuel of `length + 1`: a pass that changes the
string strictly shrinks it (a span match is at least 13 characters longer
than its capture, a pair match is removed outright), so the fuel is never
exhausted and the fuel-zero arm is unreachable for the fuels used here. -/

/-- Drop everything through the first `>` (the `[^>]*>` / `[^>]+>` tail of an
opening tag); `none` when the input has no `>`. -/
def dropThroughGt : Chars → Option Chars
  | [] => none
  | c :: rest => if c == '>' then some rest else dropThroughGt rest

/-- Split at the first case-insensitive occurrence of `pat`:
`some (before, after)` with `after` the remainder past the occurrence. -/
def splitAtFirstCI (pat : Chars) : Chars → Option (Chars × Chars)
  | [] => if pat.isEmpty then some ([], []) else none
  | c :: rest =>
    if startsWithCI (c :: rest) pat then some ([], (c :: rest).drop pat.length)
    else
      match splitAtFirstCI pat rest with
      | some (pre, post) => some (c :: pre, post)
      | none => none

/-- One global pass of `/<span[^>]*>([\s\S]*?)<\/span>/gi` replaced by the
capture group.  A match needs the literal `<span` (case-insensitive), the
first following `>`, and the first following `</span>`; the capture is
emitted verbatim and scanning resumes after the match. -/
def spanPassF : Nat → Chars → Chars
  | 0, s => s
  | _ + 1, [] => []
  | fuel + 1, c :: rest =>
    if c == '<' && startsWithCI rest ['s', 'p', 'a', 'n'] then
      match dropThroughGt (rest.drop 4) with
      | none => c :: spanPassF fuel rest
      | some afterOpen =>
        match splitAtFirstCI ['<', '/', 's', 'p', 'a', 'n', '>'] afterOpen with
        | none => c :: spanPassF fuel rest
        | some (content, afterClose) => content ++ spanPassF fuel afterClose
    else c :: spanPassF fuel rest

/-- `(?=font\b)` test (case-insensitive): the next characters are `font`
followed by a non-word character or the end of the string. -/
def fontAt (s : Chars) : Bool :=
  startsWithCI s ['f', 'o', 'n', 't'] && !wordCharAt s 4

/-- `(?=\/?font\b)` test: `fontAt` with an optional leading `/`. -/
def slashFontAt (s : Chars) : Bool :=
  match s with
  | '/' :: r => fontAt r || fontAt s
  | _ => fontAt s

/-- The closing-tag pattern `</tag>` for the backreference `<\/\1>`. -/
def closePat (tag : Chars) : Chars := '<' :: '/' :: (tag ++ ['>'])

/-- Backtracking over the greedy `(\w+)` capture: try the first `k`
characters of the word run as the tag, longest first, looking for the lazy
`[\s\S]*?<\/\1>` continuation; `some after` is the remainder past the
matched closing tag. -/
def tryTags (w afterOpen : Chars) : Nat → Option Chars
  | 0 => none
  | k + 1 =>
    match splitAtFirstCI (closePat (w.take (k + 1))) afterOpen with
    | some (_, afterClose) => some afterClose
    | none => tryTags w afterOpen k

/-- Match attempt of `<(?!font\b)(\w+)[^>]*>[\s\S]*?<\/\1>` just after a
`<`: `some after` is the remainder past the whole match. -/
def findPairMatch (afterLt : Chars) : Option Chars :=
  if fontAt afterLt then none
  else
    let w := afterLt.takeWhile isWordChar
    if w.isEmpty then none
    else
      match dropThroughGt afterLt with
      | none => none
      | some afterOpen => tryTags w afterOpen w.length

/-- One global pass of `/<(?!font\b)(\w+)[^>]*>[\s\S]*?<\/\1>/gi` replaced
by the empty string. -/
def pairPassF : Nat → Chars → Chars
  | 0, s => s
  | _ + 1, [] => []
  | fuel + 1, c :: rest =>
    if c == '<' then
      match findPairMatch rest with
      | some afterClose => pairPassF fuel afterClose
      | none => c :: pairPassF fuel rest
    else c :: pairPassF fuel rest

/-- `[^>]+>` after a `<`: at least one non-`>` character, then the first
`>`; `none` when the next character is already `>` or no `>` follows. -/
def orphanTagEnd : Chars → Option Chars
  | [] => none
  | c :: rest => if c == '>' then none else dropThroughGt (c :: rest)

/-- One global pass of `/<(?!\/?font\b)[^>]+>/gi` replaced by the empty
string (step 3; preserves `<font ...>` and `</font ...>` tags). -/
def orphanPassF : Nat → Chars → Chars
  | 0, s => s
  | _ + 1, [] => []
  | fuel + 1, c :: rest =>
    if c == '<' && !slashFontAt rest then
      match orphanTagEnd rest with
      | some afterGt => orphanPassF fuel afterGt
      | none => c :: orphanPassF fuel rest
    else c :: orphanPassF fuel rest

/-- Emit a pending run of `p` newlines, collapsing runs of four or more to
exactly three (`/\n{4,}/g` → `'\n\n\n'`). -/
def emitRun (p : Nat) : Chars := List.replicate (if 4 ≤ p then 3 else p) '\n'

/-- Run-collapsing traversal for step 4; `p` is the length of the pending
newline run. -/
def collapseGo : Chars → Nat → Chars
  | [], p => emitRun p
  | c :: rest, p =>
    if c == '\n' then collapseGo rest (p + 1)
    else emitRun p ++ (c :: collapseGo rest 0)

/-- Specification helper for the collapse step: whether the string has a
run of four or more consecutive newlines when `k` newlines immediately
precede the current position. -/
def hasRun4 : Chars → Nat → Bool
  | [], _ => false
  | c :: rest, k =>
    if c == '\n' then (decide (4 ≤ k + 1) || hasRun4 rest (k + 1)) else hasRun4 rest 0

/-- The span-unwrapping `while` loop (step 1). -/
def spanLoop : Nat → Chars → Chars
  | 0, s => s
  | n + 1, s =>
    let t := spanPassF (s.length + 1) s
    if t = s then s else spanLoop n t

/-- The pair-removal `while` loop (step 2). -/
def pairLoop : Nat → Chars → Chars
  | 0, s => s
  | n + 1, s =>
    let t := pairPassF (s.length + 1) s
    if t = s then s else pairLoop n t

/-- `cleanMessageContent(message)` (src/character.js lines 83-112). -/
def cleanMessageContent (message : String) : String :=
  if message = "" then message
  else
    let s1 := spanLoop (message.data.length + 1) message.data
    let s2 := pairLoop (s1.length + 1) s1
    let s3 := orphanPassF (s2.length + 1) s2
    let s4 := collapseGo s3 0
    String.mk (trimL s4)

/-! ## JSON values and JS member access

`JSON.parse` output is modelled by `JValue`; member access that yields JS
`undefined` is `Option.none`.  Accessing a member of `null` throws in JS and
is modelled explicitly at each use site. -/

/-- A parsed JSON value. -/
inductive JValue where
  | null
  | bool (b : Bool)
  | num (q : ℚ)
  | str (s : String)
  | arr (elems : List JValue)
  | obj (fields : List (String × JValue))
deriving Repr

/-- `v.key` member access on a non-`null` value: `none` is `undefined`.
Objects produced by `JSON.parse` have unique keys. -/
def jsGetField : JValue → String → Option JValue
  | .obj fields, k => (fields.find? fun f => f.1 == k).map fun f => f.2
  | _, _ => none

/-- `v[i]` numeric indexing (arrays by position, objects by stringified key,
strings by character). -/
def jsIndexNat : JValue → Nat → Option JValue
  | .arr xs, i => xs[i]?
  | .obj fields, i => ((fields.find? fun f => f.1 == toString i).map fun f => f.2)
  | .str s, i => (s.data[i]?).map fun c => .str (String.mk [c])
  | _, _ => none

/-- `v[0]` on an optional value. -/
def jsIndex0 : Option JValue → Option JValue
  | none => none
  | some x => jsIndexNat x 0

/-- JS truthiness of a possibly-`undefined` value (`NaN` is not modelled;
all numbers other than `0` are truthy). -/
def jsTruthy : Option JValue → Bool
  | none => false
  | some .null => false
  | some (.bool b) => b
  | some (.num q) => !(q == 0)
  | some (.str s) => !(s == "")
  | some (.arr _) => true
  | some (.obj _) => true

/-- Optional chaining `v?.key`. -/
def jsOptChain (v : Option JValue) (k : String) : Option JValue :=
  match v with
  | none => none
  | some .null => none
  | some x => jsGetField x k

/-- JS `a || b` on values. -/
def jsOrOpt (a b : Option JValue) : Option JValue := if jsTruthy a then a else b

mutual

/-- Structural equality of JSON values, modelling JS `===` / SameValueZero
for the primitive values produced by `JSON.parse` (object identity is
approximated by structural equality). -/
def jvalEq : JValue → JValue → Bool
  | .null, .null => true
  | .bool a, .bool b => a == b
  | .num a, .num b => a == b
  | .str a, .str b => a == b
  | .arr a, .arr b => jvalEqList a b
  | .obj a, .obj b => jvalEqFields a b
  | _, _ => false

/-- Element-wise `jvalEq`. -/
def jvalEqList : List JValue → List JValue → Bool
  | [], [] => true
  | a :: as', b :: bs' => jvalEq a b && jvalEqList as' bs'
  | _, _ => false

/-- Field-wise `jvalEq`. -/
def jvalEqFields : List (String × JValue) → List (String × JValue) → Bool
  | [], [] => true
  | a :: as', b :: bs' => a.1 == b.1 && jvalEq a.2 b.2 && jvalEqFields as' bs'
  | _, _ => false

end

mutual

/-- Template-literal coercion (`${v}`); JS number formatting is approximated
by the rational's `toString`, which agrees on the integral values occurring
in practice. -/
def jsToString : JValue → String
  | .null => "null"
  | .bool b => if b then "true" else "false"
  | .num q => toString q
  | .str s => s
  | .arr xs => String.intercalate "," (jsToStringList xs)
  | .obj _ => "[object Object]"

/-- `jsToString` mapped over array elements. -/
def jsToStringList : List JValue → List String
  | [] => []
  | x :: xs => jsToString x :: jsToStringList xs

end

/-! ## `hasActualContent` (src/presets.js, lines 14-37) -/

/-- `[^}]*` then the literal `}}`: `some rest` past the closing braces. -/
def nonBraceThenClose (s : Chars) : Option Chars :=
  match s.dropWhile (fun c => !(c == '\x7d')) with
  | '\x7d' :: '\x7d' :: r => some r
  | _ => none

/-- One global pass of `/\{\{\/\/[^}]*\}\}/g` replaced by the empty string. -/
def stripBraceComments : Nat → Chars → Chars
  | 0, s => s
  | _ + 1, [] => []
  | f + 1, c :: rest =>
    if c == '\x7b' then
      match rest with
      | '\x7b' :: '/' :: '/' :: r =>
        (match nonBraceThenClose r with
         | some after => stripBraceComments f after
         | none => c :: stripBraceComments f rest)
      | _ => c :: stripBraceComments f rest
    else c :: stripBraceComments f rest

/-- Global case-insensitive removal of a literal pattern
(`/\{\{trim\}\}/gi`, `/\{\{noop\}\}/gi`). -/
def stripLitCI (pat : Chars) : Nat → Chars → Chars
  | 0, s => s
  | _ + 1, [] => []
  | f + 1, c :: rest =>
    if !pat.isEmpty && startsWithCI (c :: rest) pat then
      stripLitCI pat f ((c :: rest).drop pat.length)
    else c :: stripLitCI pat f rest

/-- One global pass of `/\{\{[^}]*\}\}/g` replaced by the empty string. -/
def stripMacros : Nat → Chars → Chars
  | 0, s => s
  | _ + 1, [] => []
  | f + 1, c :: rest =>
    if c == '\x7b' then
      match rest with
      | '\x7b' :: r =>
        (match nonBraceThenClose r with
         | some after => stripMacros f after
         | none => c :: stripMacros f rest)
      | _ => c :: stripMacros f rest
    else c :: stripMacros f rest

/-- The content-producing macro names of
`/\{\{(char|user|persona|scenario|personality|description|system|original|input|message)\}\}/i`. -/
def contentMacroWords : List Chars :=
  [['c','h','a','r'], ['u','s','e','r'], ['p','e','r','s','o','n','a'],
   ['s','c','e','n','a','r','i','o'],
   ['p','e','r','s','o','n','a','l','i','t','y'],
   ['d','e','s','c','r','i','p','t','i','o','n'],
   ['s','y','s','t','e','m'], ['o','r','i','g','i','n','a','l'],
   ['i','n','p','u','t'], ['m','e','s','s','a','g','e']]

/-- `{{word}}` for one of the content-macro words starts here
(case-insensitive). -/
def hasContentMacroAt (s : Chars) : Bool :=
  contentMacroWords.any fun w =>
    startsWithCI s ('\x7b' :: '\x7b' :: (w ++ ['\x7d', '\x7d']))

/-- The `test` of the content-macro regex anywhere in the string. -/
def hasContentMacros : Chars → Bool
  | [] => false
  | c :: rest => hasContentMacroAt (c :: rest) || hasContentMacros rest

/-- `hasActualContent(content)` (source lines 14-37); non-string JS inputs
are handled at the call site (`hasActualContentJ`). -/
def hasActualContent (content : String) : Bool :=
  if content = "" then false
  else
    let s0 := content.data
    let s1 := stripBraceComments (s0.length + 1) s0
    let s2 := stripLitCI ['\x7b', '\x7b', 't', 'r', 'i', 'm', '\x7d', '\x7d'] (s1.length + 1) s1
    let s3 := stripLitCI ['\x7b', '\x7b', 'n', 'o', 'o', 'p', '\x7d', '\x7d'] (s2.length + 1) s2
    let cleaned := trimL s3
    let hasTextOutsideMacros := !(trimL (stripMacros (cleaned.length + 1) cleaned)).isEmpty
    !cleaned.isEmpty && (hasTextOutsideMacros || hasContentMacros cleaned)

/-- `hasActualContent` on a possibly-`undefined` JS value; the
`typeof content !== 'string'` guard returns false for non-strings. -/
def hasActualContentJ : Option JValue → Bool
  | some (.str s) => hasActualContent s
  | _ => false

/-! ## `parsePresetFile` (src/presets.js, lines 44-126)

The embedding starts from the `JSON.parse` result (the `FileReader` and the
parse itself are host steps); the enclosing `try`/`catch` turns any thrown
`TypeError` into a `Failed to parse preset file: ...` rejection, modelled by
the `.error` strings below. -/

/-- One `{identifier, role, content}` record of the parsed preset. -/
structure ParsedPrompt where
  identifier : JValue
  role : JValue
  content : JValue
deriving Repr

/-- The `{name, prompts}` result of `parsePresetFile`. -/
structure PresetData where
  name : String
  prompts : List ParsedPrompt
deriving Repr

/-- `promptMap.get(k)`: the map is built from prompts with truthy
`identifier`, later entries overwriting earlier ones, so lookup returns the
last such prompt. -/
def promptMapGet (prompts : List JValue) (k : JValue) : Option JValue :=
  (prompts.filter fun p => jsTruthy (jsGetField p "identifier")).reverse.find?
    fun p =>
      match jsGetField p "identifier" with
      | some idv => jvalEq idv k
      | none => false

/-- `.null` test. -/
def isNullJ : JValue → Bool
  | .null => true
  | _ => false

/-- `preset.prompt_order.find(po => po.character_id === 100001)`; a `null`
array element makes the callback throw. -/
def findCustomOrder : List JValue → Except String (Option JValue)
  | [] => .ok none
  | po :: rest =>
    if isNullJ po then
      .error "Failed to parse preset file: Cannot read properties of null (reading character_id)"
    else if (match jsGetField po "character_id" with
             | some (.num q) => q == 100001
             | _ => false) then
      .ok (some po)
    else findCustomOrder rest

/-- The body of the loop over `customOrder.order`: the contribution of one
ordering entry (`none` when it is skipped). -/
def orderEntryPrompt (prompts : List JValue) (entry : JValue) : Option ParsedPrompt :=
  if jsTruthy (jsGetField entry "enabled") && jsTruthy (jsGetField entry "identifier") then
    match jsGetField entry "identifier" with
    | none => none
    | some idv =>
      match promptMapGet prompts idv with
      | none => none
      | some p =>
        if jsTruthy (jsGetField p "marker") then none
        else if !jsTruthy (jsGetField p "content") || !jsTruthy (jsGetField p "role") then none
        else if !hasActualContentJ (jsGetField p "content") then none
        else some
          { identifier := (jsGetField p "identifier").getD .null
            role := (jsGetField p "role").getD .null
            content := (jsGetField p "content").getD .null }
  else none

/-- The loop over the ordering entries (source lines 80-106); a `null`
entry makes `entry.enabled` throw. -/
def extractEnabledPrompts (prompts : List JValue) :
    List JValue → Except String (List ParsedPrompt)
  | [] => .ok []
  | entry :: rest =>
    if isNullJ entry then
      .error "Failed to parse preset file: Cannot read properties of null (reading enabled)"
    else
      match orderEntryPrompt prompts entry with
      | some p => (extractEnabledPrompts prompts rest).map fun tail => p :: tail
      | none => extractEnabledPrompts prompts rest

/-- `file.name.replace(/\.json$/i, '')`. -/
def stripJsonExt (name : String) : String :=
  if endsWithL (toLowerL name.data) ['.', 'j', 's', 'o', 'n'] then
    String.mk (name.data.take (name.data.length - 5))
  else name

/-- `JValue` is a JSON array. -/
def jsIsArray : Option JValue → Bool
  | some (.arr _) => true
  | _ => false

/-- `parsePresetFile(file)` from the parsed document onwards (source lines
44-126): `.error` carries the rejection message. -/
def parsePresetFile (preset : JValue) (fileName : String) : Except String PresetData :=
  if isNullJ preset then
    .error "Failed to parse preset file: Cannot read properties of null (reading prompts)"
  else
    match jsGetField preset "prompts" with
    | some (.arr prompts) =>
      (match jsGetField preset "prompt_order" with
       | some (.arr promptOrder) =>
         if prompts.any isNullJ then
           .error "Failed to parse preset file: Cannot read properties of null (reading identifier)"
         else
           (match findCustomOrder promptOrder with
            | .error e => .error e
            | .ok none =>
              .error "Invalid preset format: missing custom prompt order (character_id: 100001)"
            | .ok (some customOrder) =>
              if !jsTruthy (jsGetField customOrder "order") then
                .error "Invalid preset format: missing custom prompt order (character_id: 100001)"
              else
                match jsGetField customOrder "order" with
                | some (.arr orderEntries) =>
                  (extractEnabledPrompts prompts orderEntries).map fun ps =>
                    { name := stripJsonExt fileName, prompts := ps }
                | some (.str s) =>
                  (extractEnabledPrompts prompts
                      (s.data.map fun c => .str (String.mk [c]))).map fun ps =>
                    { name := stripJsonExt fileName, prompts := ps }
                | _ => .error "Failed to parse preset file: customOrder.order is not iterable")
       | _ => .error "Invalid preset format: missing prompt_order array")
    | _ => .error "Invalid preset format: missing prompts array"

/-! ## `generateImage` response normalization (src/presets.js api section, lines 555-637)

The embedding covers `generateImage` from the received body text onwards:
SSE unwrapping, the `JSON.parse` attempt (the host parser is the
`parseJson` parameter), the raw-body fallbacks, and the cascade of JSON
shape probes.  A success is `.ok v` where `v` is the returned JS value
(built strings are `.str`; provider fields are passed through verbatim);
`.error` is a thrown `Error`/`TypeError`. -/

/-- `'http://'`. -/
def httpPre : Chars := ['h','t','t','p',':','/','/']

/-- `'https://'`. -/
def httpsPre : Chars := ['h','t','t','p','s',':','/','/']

/-- `'data:image/'`. -/
def dataImagePre : Chars := ['d','a','t','a',':','i','m','a','g','e','/']

/-- `'data:'`. -/
def dataPre : Chars := ['d','a','t','a',':']

/-- `'data:image/png;base64,'`, the wrapping prefix for recognized base64
payloads. -/
def b64PngPrefix : String := "data:image/png;base64,"

/-- Scan the split lines for the first `data: `-prefixed line containing a
`{`; returns the default (whole body) if none matches. -/
def sseExtractLoop (deflt : Chars) : List Chars → Chars
  | [] => deflt
  | line :: rest =>
    if startsWithL line ['d','a','t','a',':',' '] && containsL line ['\x7b'] then
      line.drop 6
    else sseExtractLoop deflt rest

/-- Lines 557-568: when the body looks SSE-framed (`data: {` or
`: keepalive` occurs), extract the JSON payload of the first data line. -/
def extractJsonText (responseText : Chars) : Chars :=
  if containsL responseText ['d','a','t','a',':',' ','\x7b'] ||
      containsL responseText [':',' ','k','e','e','p','a','l','i','v','e'] then
    sseExtractLoop responseText (splitCharL '\n' responseText)
  else responseText

/-- A base64-alphabet character (`[A-Za-z0-9+/=]`). -/
def b64Char (c : Char) : Bool :=
  ('A' ≤ c && c ≤ 'Z') || ('a' ≤ c && c ≤ 'z') || ('0' ≤ c && c ≤ '9') ||
  c == '+' || c == '/' || c == '='

/-- `/^[A-Za-z0-9+/=]+$/.test(s.trim().substring(0, 100))`. -/
def looksBase64Prefix (s : Chars) : Bool :=
  let t := (trimL s).take 100
  !t.isEmpty && t.all b64Char

/-- `/^[A-Za-z0-9+/=]{100,}$/.test(s.trim())` (the chat-content base64
test is applied to the trimmed content). -/
def looksBase64Long (s : Chars) : Bool :=
  let t := trimL s
  100 ≤ t.length && t.all b64Char

/-- A character admissible inside the `[^\s)]+` URL group of the markdown
image regex. -/
def mdUrlChar (c : Char) : Bool := !isJsWhitespace c && !(c == ')')

/-- One prefix attempt of the markdown URL tail: the capture is the prefix
plus the maximal `[^\s)]` run, valid only when a `)` follows it. -/
def mdTryUrlPre (pre s : Chars) : Option Chars :=
  if startsWithL s pre then
    if ((s.drop pre.length).takeWhile mdUrlChar).isEmpty then none
    else if ((s.drop pre.length).drop
        ((s.drop pre.length).takeWhile mdUrlChar).length).head? == some ')' then
      some (pre ++ (s.drop pre.length).takeWhile mdUrlChar)
    else none
  else none

/-- The `(https?:\/\/[^\s)]+)\)` tail of the markdown image regex, tried at
the position just after `](` (the greedy `s?` tries `https` first). -/
def mdTryUrl (s : Chars) : Option Chars :=
  match mdTryUrlPre httpsPre s with
  | some u => some u
  | none => mdTryUrlPre httpPre s

/-- The lazy `.*?\]\(` search of the markdown image regex: scan for each
`](` in turn (the gap cannot contain a newline), trying the URL tail
there. -/
def mdGapScan : Chars → Option Chars
  | [] => none
  | c :: rest =>
    if c == '\n' then none
    else if c == ']' && rest.head? == some '(' then
      match mdTryUrl (rest.drop 1) with
      | some u => some u
      | none => mdGapScan rest
    else mdGapScan rest

/-- `content.match(/!\[.*?\]\((https?:\/\/[^\s)]+)\)/)`: the capture group
of the leftmost match. -/
def markdownImageMatch : Chars → Option Chars
  | [] => none
  | c :: rest =>
    if c == '!' && rest.head? == some '[' then
      match mdGapScan (rest.drop 1) with
      | some u => some u
      | none => markdownImageMatch rest
    else markdownImageMatch rest

/-- A character admissible in the `[^\s"'<>]` classes of the bare-URL
regex. -/
def urlChar (c : Char) : Bool :=
  !isJsWhitespace c && !(c == '"') && !(c == '\'') && !(c == '<') && !(c == '>')

/-- One of the extensions `png|jpg|jpeg|gif|webp`, case-insensitively, at
the head of the remaining run. -/
def urlExtAt (m : Chars) : Bool :=
  startsWithCI m ['p','n','g'] || startsWithCI m ['j','p','g'] ||
  startsWithCI m ['j','p','e','g'] || startsWithCI m ['g','i','f'] ||
  startsWithCI m ['w','e','b','p']

/-- The `[^\s"'<>]+\.(ext)[^\s"'<>]*` body over the maximal `urlChar` run:
some split point `i ≥ 1` is a dot followed by a known extension. -/
def urlRunSplit (run : Chars) : Bool :=
  (List.range run.length).any fun i =>
    decide (1 ≤ i) && run[i]? == some '.' && urlExtAt (run.drop (i + 1))

/-- One prefix attempt of the bare image-URL regex: the capture is the
original-case prefix plus the maximal run. -/
def urlTryPre (pre s : Chars) : Option Chars :=
  if startsWithCI s pre then
    if urlRunSplit ((s.drop pre.length).takeWhile urlChar) then
      some (s.take pre.length ++ (s.drop pre.length).takeWhile urlChar)
    else none
  else none

/-- Match attempt of `/(https?:\/\/[^\s"'<>]+\.(png|jpg|jpeg|gif|webp)[^\s"'<>]*)/i`
at one position. -/
def urlMatchTry (s : Chars) : Option Chars :=
  match urlTryPre httpsPre s with
  | some u => some u
  | none => urlTryPre httpPre s

/-- The leftmost match of the bare image-URL regex. -/
def imageUrlMatch : Chars → Option Chars
  | [] => none
  | c :: rest =>
    match urlMatchTry (c :: rest) with
    | some u => some u
    | none => imageUrlMatch rest

/-- `choice.message?.content || choice.delta?.content`. -/
def choiceContent (choice : JValue) : Option JValue :=
  jsOrOpt (jsOptChain (jsGetField choice "message") "content")
    (jsOptChain (jsGetField choice "delta") "content")

/-- The string-content probes of the chat-completions branch (source lines
594-616). -/
def chatContentString (cs : Chars) : Except String (Option JValue) :=
  if startsWithL cs httpPre || startsWithL cs httpsPre then
    .ok (some (.str (String.mk (trimL cs))))
  else if startsWithL cs dataImagePre then
    .ok (some (.str (String.mk (trimL cs))))
  else
    match markdownImageMatch cs with
    | some u => .ok (some (.str (String.mk u)))
    | none =>
      match imageUrlMatch cs with
      | some u => .ok (some (.str (String.mk u)))
      | none =>
        if looksBase64Long cs then
          .ok (some (.str (b64PngPrefix ++ String.mk (trimL cs))))
        else .ok none

/-- The body of the `if (content)` block: a truthy non-string content makes
`content.startsWith` throw a `TypeError`. -/
def chatChoiceContentProbe (choice : JValue) : Except String (Option JValue) :=
  if jsTruthy (choiceContent choice) then
    match choiceContent choice with
    | some (.str s) => chatContentString s.data
    | _ => .error "TypeError: content.startsWith is not a function"
  else .ok none

/-- The chat-completions content probe (source lines 590-617): `.ok none`
falls through to the later shape probes. -/
def chatContentProbe (data : JValue) : Except String (Option JValue) :=
  if jsTruthy (jsGetField data "choices") && jsTruthy (jsIndex0 (jsGetField data "choices")) then
    match jsIndex0 (jsGetField data "choices") with
    | none => .ok none
    | some choice => chatChoiceContentProbe choice
  else .ok none

/-- The trailing shape probes (source lines 627-636): top-level
`url`/`image_url`/`output` pass-throughs, then the base64 wrappers. -/
def restProbe (data : JValue) : Except String JValue :=
  if jsTruthy (jsGetField data "url") then .ok ((jsGetField data "url").getD .null)
  else if jsTruthy (jsGetField data "image_url") then
    .ok ((jsGetField data "image_url").getD .null)
  else if jsTruthy (jsGetField data "output") then
    .ok ((jsGetField data "output").getD .null)
  else if jsTruthy (jsGetField data "b64_json") then
    .ok (.str (b64PngPrefix ++ jsToString ((jsGetField data "b64_json").getD .null)))
  else if jsTruthy (jsGetField data "image") then
    match jsGetField data "image" with
    | some (.str s) =>
      if startsWithL s.data dataPre then .ok (.str s)
      else .ok (.str (b64PngPrefix ++ s))
    | _ => .error "TypeError: image.startsWith is not a function"
  else if jsTruthy (jsGetField data "base64") then
    .ok (.str (b64PngPrefix ++ jsToString ((jsGetField data "base64").getD .null)))
  else .error "Could not find image URL or data in response"

/-- The OpenAI-image-array probe (source lines 620-624), falling through to
`restProbe`. -/
def dataArrayProbe (data : JValue) : Except String JValue :=
  if jsTruthy (jsGetField data "data") && jsTruthy (jsIndex0 (jsGetField data "data")) then
    match jsIndex0 (jsGetField data "data") with
    | none => restProbe data
    | some imageData =>
      if jsTruthy (jsGetField imageData "url") then
        .ok ((jsGetField imageData "url").getD .null)
      else if jsTruthy (jsGetField imageData "b64_json") then
        .ok (.str (b64PngPrefix ++ jsToString ((jsGetField imageData "b64_json").getD .null)))
      else restProbe data
  else restProbe data

/-- The full JSON shape cascade: chat-completions content first, then the
image-array and top-level probes. -/
def jsonShapeProbe (data : JValue) : Except String JValue :=
  match chatContentProbe data with
  | .error e => .error e
  | .ok (some v) => .ok v
  | .ok none => dataArrayProbe data

/-- `generateImage`'s response normalization (source lines 555-637), from
the body text onwards.  `parseJson` is the host `JSON.parse` returning
`none` on a parse failure. -/
def parseImageResponse (parseJson : Chars → Option JValue) (responseText : Chars) :
    Except String JValue :=
  match parseJson (extractJsonText responseText) with
  | none =>
    if startsWithL responseText httpPre || startsWithL responseText httpsPre then
      .ok (.str (String.mk (trimL responseText)))
    else if startsWithL responseText dataImagePre then
      .ok (.str (String.mk (trimL responseText)))
    else if looksBase64Prefix responseText then
      .ok (.str (b64PngPrefix ++ String.mk (trimL responseText)))
    else .error ("Invalid response format: " ++ String.mk (responseText.take 100))
  | some .null => .error "TypeError: Cannot read properties of null (reading choices)"
  | some data => jsonShapeProbe data

/-- Specification predicate for C2: the value is a string carrying a
recognizable scheme prefix (`http://`, `https://` case-insensitively, or
`data:`). -/
def goodImageRef (v : JValue) : Prop :=
  ∃ s, v = JValue.str s ∧
    (startsWithCI s.data httpPre || startsWithCI s.data httpsPre ||
      startsWithL s.data dataPre) = true

/-- Specification predicate for C2: the value is the verbatim content of a
provider-supplied URL-ish field (`data[0].url`, `url`, `image_url`,
`output`), which the source passes through without validation. -/
def passThroughVal (data v : JValue) : Prop :=
  (∃ d0, jsIndex0 (jsGetField data "data") = some d0 ∧ jsGetField d0 "url" = some v) ∨
  jsGetField data "url" = some v ∨
  jsGetField data "image_url" = some v ∨
  jsGetField data "output" = some v

/-! ## Prompt assembly (src/presets.js api section, `transformMessageToImagePrompt`, lines 284-367)

The embedding covers the pure assembly of the role-tagged message sequence
(up to and including `applyPostProcessing`); the subsequent HTTP request is
out of scope for the assembly claims.  Host-supplied data (character card,
persona, awaited lorebook content, substituted preset prompts, avatar) are
parameters. -/

/-- `getCharacterData()` result (all fields default to `''`). -/
structure CharData where
  name : String
  description : String
  personality : String
  scenario : String
deriving DecidableEq, Repr

/-- `getUserPersonaData()` result. -/
structure PersonaData where
  name : String
  description : String
deriving DecidableEq, Repr

/-- `getCharacterAvatar()` result. -/
structure AvatarData where
  mimeType : String
  data : String
  name : String
deriving DecidableEq, Repr

/-- The `textLlm` settings consumed by the assembly
(`uploadedPreset` truthiness is `hasUploadedPreset`). -/
structure TextLlmSettings where
  systemPrompt : String
  usePreset : Bool
  hasUploadedPreset : Bool
  postProcessing : String
  usePrefill : Bool
  prefillContent : String
deriving DecidableEq, Repr

/-- The extension settings consumed by the assembly. -/
structure AssemblySettings where
  includeCharacterCard : Bool
  includeUserPersona : Bool
  includeCharacterImage : Bool
  lorebookEnabled : Bool
  lorebookIncludeInPrompt : Bool
  textLlm : TextLlmSettings
deriving DecidableEq, Repr

/-- Source lines 294-301: append the character envelope when enabled and
character data is present, skipping empty fields. -/
def appendCharacterInfo (sp : String) (includeCharacterCard : Bool)
    (characterData : Option CharData) : String :=
  match characterData with
  | some cd =>
    if includeCharacterCard then
      sp ++ "\n\n--- Character Information (use this to describe the character accurately) ---"
        ++ (if cd.name ≠ "" then "\nCharacter Name: " ++ cd.name else "")
        ++ (if cd.description ≠ "" then "\nCharacter Description: " ++ cd.description else "")
        ++ (if cd.personality ≠ "" then "\nCharacter Personality: " ++ cd.personality else "")
        ++ (if cd.scenario ≠ "" then "\nScenario: " ++ cd.scenario else "")
        ++ "\n--- End Character Information ---"
    else sp
  | none => sp

/-- Source lines 304-312: append the user-persona envelope. -/
def appendPersonaInfo (sp : String) (includeUserPersona : Bool)
    (personaData : Option PersonaData) : String :=
  if includeUserPersona then
    match personaData with
    | some pd =>
      sp ++ "\n\n--- User/Player Information (use this to describe the user accurately) ---"
        ++ (if pd.name ≠ "" then "\nUser Name: " ++ pd.name else "")
        ++ (if pd.description ≠ "" then "\nUser Description: " ++ pd.description else "")
        ++ "\n--- End User Information ---"
    | none => sp
  else sp

/-- Source lines 315-322: append the lorebook envelope when the feature is
enabled and the awaited content is non-empty. -/
def appendLorebookInfo (sp : String) (enabled includeInPrompt : Bool)
    (lorebookContent : String) : String :=
  if enabled && includeInPrompt then
    if lorebookContent ≠ "" then
      sp ++ "\n\n--- Lorebook/World Information (use this for additional context and visual details) ---"
        ++ "\n" ++ lorebookContent
        ++ "\n--- End Lorebook Information ---"
    else sp
  else sp

/-- The message sequence assembled and post-processed by
`transformMessageToImagePrompt` (source lines 284-367). -/
def transformMessageToImagePromptMessages (settings : AssemblySettings)
    (characterData : Option CharData) (personaData : Option PersonaData)
    (lorebookContent : String) (presetPrompts : List ChatMsg)
    (avatar : Option AvatarData) (message : String) : List ChatMsg :=
  let cleanedMessage := cleanMessageContent message
  let sp1 := appendCharacterInfo settings.textLlm.systemPrompt
    settings.includeCharacterCard characterData
  let sp2 := appendPersonaInfo sp1 settings.includeUserPersona personaData
  let sp3 := appendLorebookInfo sp2 settings.lorebookEnabled
    settings.lorebookIncludeInPrompt lorebookContent
  let presetMsgs :=
    if settings.textLlm.usePreset && settings.textLlm.hasUploadedPreset &&
        !presetPrompts.isEmpty then presetPrompts
    else []
  let charAvatarData := if settings.includeCharacterImage then avatar else none
  let userContent : MsgContent :=
    match charAvatarData with
    | some av =>
      .parts
        [ .textPart ("[Reference image for " ++ av.name ++ "]"),
          .imagePart ("data:" ++ av.mimeType ++ ";base64," ++ av.data),
          .textPart ("Transform this roleplay message into an image generation prompt:\n\n"
            ++ cleanedMessage) ]
    | none =>
      .text ("Transform this roleplay message into an image generation prompt:\n\n"
        ++ cleanedMessage)
  let messages := presetMsgs
    ++ [{ role := "system", content := .text sp3 }, { role := "user", content := userContent }]
    ++ (if settings.textLlm.usePrefill && settings.textLlm.prefillContent ≠ "" then
          [{ role := "assistant", content := .text settings.textLlm.prefillContent }]
        else [])
  let postProcessingMode :=
    if settings.textLlm.postProcessing = "" then "none" else settings.textLlm.postProcessing
  applyPostProcessing messages postProcessingMode

/-- The default `textLlm.systemPrompt` (src/ui.js constants section,
`defaultSettings`). -/
def defaultSystemPrompt : String :=
  "You are an image prompt generator. Transform the given roleplay message into a detailed image generation prompt.\nFocus on visual elements: character appearance, setting, actions, mood, lighting.\nOutput ONLY the image prompt, no explanations or additional text.\nKeep the prompt concise but descriptive, suitable for image generation AI."

/-! ## `getCharacterMessage` (src/character.js, lines 119-135) -/

/-- One entry of the host chat log. -/
structure ChatLogMsg where
  mes : String
  is_user : Bool
  is_system : Bool
deriving DecidableEq, Repr

/-- The backwards `for` loop of `getCharacterMessage`: scan indices
`i-1, ..., 0` for the most recent non-user non-system message. -/
def scanBackForCharacterMessage (chat : List ChatLogMsg) : Nat → Option (String × Nat)
  | 0 => none
  | i + 1 =>
    match chat[i]? with
    | some m =>
      if !m.is_user && !m.is_system then some (m.mes, i)
      else scanBackForCharacterMessage chat i
    | none => scanBackForCharacterMessage chat i

/-- `getCharacterMessage(messageIndex)` (source lines 119-135). -/
def getCharacterMessage (chat : List ChatLogMsg) (messageIndex : Option Nat) :
    Option (String × Nat) :=
  if chat.isEmpty then none
  else
    match messageIndex with
    | some i =>
      match chat[i]? with
      | some m => if !m.is_user then some (m.mes, i) else none
      | none => none
    | none => scanBackForCharacterMessage chat chat.length

/-! ## The generation workflow (src/generation.js, lines 120-248)

A trace model: the side effects of one invocation (toasts, loading overlay,
the two network calls, message creation) are recorded as an event list; the
module-level `isGenerating` flag and abort handle (`settings.js` accessors
over module state) form the state.  Host interactions are oracles indexed
by the regeneration iteration; the only suspension points are the awaited
calls, and the guard plus flag-set prefix runs synchronously before the
first of them. -/

/-- An observable side effect of the workflow. -/
inductive GenEvent where
  | toastWarning (msg : String)
  | toastInfo (msg : String)
  | toastError (msg : String)
  | showLoading (text : String)
  | hideLoading
  | netTextGeneration
  | netImageGeneration
  | createMessage
deriving DecidableEq, Repr

/-- The module-level mutable generation state. -/
structure GenState where
  isGenerating : Bool
  hasAbortController : Bool
deriving DecidableEq, Repr

/-- The settings consulted by `generateImageForMessage`. -/
structure GenSettings where
  enabled : Bool
  textLlmApiUrl : String
  imageGenApiUrl : String
  manualPromptMode : Bool
  editPromptBeforeSending : Bool
deriving DecidableEq, Repr

/-- Outcome of an awaited host call that can throw. -/
inductive JsCallResult where
  | ok (value : String)
  | abortError
  | failed (msg : String)
deriving DecidableEq, Repr

/-- User decision in the image preview popup. -/
inductive PopupDecision where
  | accepted
  | regenerate
  | closed
deriving DecidableEq, Repr

/-- Host oracles, indexed by the regeneration iteration. -/
structure GenEnv where
  chat : List ChatLogMsg
  manualPromptResults : Nat → Option String
  transformResults : Nat → JsCallResult
  editResults : Nat → Option String
  imageResults : Nat → JsCallResult
  popupResults : Nat → PopupDecision

/-- `!existingPrompt` (both `null` and the empty string are falsy). -/
def promptFalsy : Option String → Bool
  | none => true
  | some p => p == ""

/-- Result of the synchronous entry prefix of `generateImageForMessage`. -/
inductive EntryResult where
  | reject (s : GenState) (events : List GenEvent)
  | proceed (s : GenState)
deriving Repr

/-- The synchronous entry prefix (source lines 120-138): the single-flight
guard, the configuration guards, and `setIsGenerating(true)` — all of which
run before the first suspension point. -/
def generationEntry (settings : GenSettings) (existingPrompt : Option String)
    (s : GenState) : EntryResult :=
  if s.isGenerating then
    .reject s [.toastWarning "Already generating an image, please wait..."]
  else if !settings.enabled then
    .reject s [.toastInfo "Image Generator is disabled"]
  else if settings.textLlmApiUrl = "" && promptFalsy existingPrompt &&
      !settings.manualPromptMode then
    .reject s [.toastError "Text LLM API URL is not configured"]
  else if settings.imageGenApiUrl = "" then
    .reject s [.toastError "Image Generation API URL is not configured"]
  else .proceed { s with isGenerating := true }

/-- Completion of the run: the `finally` block (hide the overlay, clear
`isGenerating` and the abort handle). -/
def genFinally (events : List GenEvent) : GenState × List GenEvent ×  Bool :=
  ({ isGenerating := false, hasAbortController := false }, events ++ [.hideLoading], true)

/-- Result of the prompt-acquisition phase (source lines 145-161). -/
inductive PromptStep where
  | cancelled (events : List GenEvent)
  | aborted (events : List GenEvent)
  | errored (events : List GenEvent)
  | got (events : List GenEvent) (prompt : String) (s : GenState)
deriving Repr

/-- Prompt acquisition: reuse an existing prompt, ask the user (manual
mode), or call the text LLM. -/
def acquirePrompt (settings : GenSettings) (env : GenEnv) (iter : Nat)
    (s : GenState) (existingPrompt : Option String) : PromptStep :=
  if promptFalsy existingPrompt then
    if settings.manualPromptMode then
      match env.manualPromptResults iter with
      | none => .cancelled [.toastInfo "Image generation cancelled"]
      | some p =>
        if p = "" then .cancelled [.toastInfo "Image generation cancelled"]
        else .got [] p s
    else
      match env.transformResults iter with
      | .ok p =>
        .got [.showLoading "Generating image prompt...", .netTextGeneration] p
          { s with hasAbortController := true }
      | .abortError => .aborted [.showLoading "Generating image prompt...", .netTextGeneration]
      | .failed m =>
        .errored [.showLoading "Generating image prompt...", .netTextGeneration, .toastError m]
  else
    match existingPrompt with
    | some p => .got [] p s
    | none => .got [] "" s

/-- `generateImageForMessage(messageIndex, existingPrompt)` (source lines
120-197).  The fuel bounds the user-driven regeneration chain (each
regeneration recurses once); `iter` indexes the oracles.  The returned
`Bool` is true when the JS function returned (it is false only when the
fuel cut an unbounded regeneration chain). -/
def generateImageForMessage (settings : GenSettings) (env : GenEnv) :
    Nat → Nat → GenState → Option Nat → Option String →
    GenState × List GenEvent × Bool
  | 0, _, s, _, _ => (s, [], false)
  | fuel + 1, iter, s, messageIndex, existingPrompt =>
    match generationEntry settings existingPrompt s with
    | .reject s' events => (s', events, true)
    | .proceed s1 =>
      match getCharacterMessage env.chat messageIndex with
      | none => genFinally [.toastWarning "No character message found"]
      | some messageData =>
        match acquirePrompt settings env iter s1 existingPrompt with
        | .cancelled ev => genFinally ev
        | .aborted ev => genFinally ev
        | .errored ev => genFinally ev
        | .got ev1 prompt0 s2 =>
          let ev1' := ev1 ++ [.hideLoading]
          match (if settings.editPromptBeforeSending then env.editResults iter
                 else some prompt0) with
          | none => genFinally (ev1' ++ [.toastInfo "Image generation cancelled"])
          | some prompt1 =>
            match env.imageResults iter with
            | .abortError =>
              genFinally (ev1' ++ [.showLoading "Generating image...", .netImageGeneration])
            | .failed m =>
              genFinally (ev1' ++ [.showLoading "Generating image...", .netImageGeneration,
                .toastError m])
            | .ok _imageUrl =>
              let ev2 := ev1' ++ [.showLoading "Generating image...", .netImageGeneration,
                .hideLoading]
              match env.popupResults iter with
              | .accepted => genFinally (ev2 ++ [.createMessage])
              | .closed => genFinally ev2
              | .regenerate =>
                let inner := generateImageForMessage settings env fuel (iter + 1)
                  { isGenerating := false, hasAbortController := s2.hasAbortController }
                  (some messageData.2) (some prompt1)
                ({ isGenerating := false, hasAbortController := false },
                  ev2 ++ inner.2.1 ++ [.hideLoading], inner.2.2)

/-- `generateImageForMessageFullAuto(messageIndex)` (source lines 203-248):
same single-flight guard but a silent skip, no interactive steps. -/
def generateImageForMessageFullAuto (settings : GenSettings) (env : GenEnv)
    (iter : Nat) (s : GenState) (messageIndex : Option Nat) :
    GenState × List GenEvent × Bool :=
  if s.isGenerating then (s, [], true)
  else if !settings.enabled then (s, [], true)
  else if settings.textLlmApiUrl = "" then (s, [], true)
  else if settings.imageGenApiUrl = "" then (s, [], true)
  else
    let reset : GenState := { isGenerating := false, hasAbortController := false }
    match getCharacterMessage env.chat messageIndex with
    | none => (reset, [], true)
    | some _ =>
      match env.transformResults iter with
      | .abortError => (reset, [.netTextGeneration], true)
      | .failed m => (reset, [.netTextGeneration, .toastError m], true)
      | .ok _ =>
        match env.imageResults iter with
        | .abortError => (reset, [.netTextGeneration, .netImageGeneration], true)
        | .failed m => (reset, [.netTextGeneration, .netImageGeneration, .toastError m], true)
        | .ok _ =>
          (reset, [.netTextGeneration, .netImageGeneration, .createMessage], true)

/-! ## Fixtures: concrete inputs used by scenario theorems, witnesses and
counterexamples -/

/-- A host regex engine that rejects every pattern (models `new RegExp`
throwing, e.g. for `[`). -/
def failingEngine : RegexEngine := ⟨fun _ _ => .error "SyntaxError: invalid regular expression"⟩

/-- Lorebook settings with both budgets configured to `0`. -/
def lbSettingsZeroBudget : LorebookSettings :=
  { enabled := true, includeInPrompt := true, includeConstant := true,
    scanDepth := 1, maxEntries := 0, maxTokens := 0 }

/-- A constant, enabled lorebook entry with four characters of content. -/
def constEntryA : LoreEntry :=
  { uid := 7, comment := "Setting", content := "abcd", key := [], keysecondary := [],
    selective := false, selectiveLogic := 0, constant := true, disable := false,
    useProbability := false, probability := 100, caseSensitive := none,
    matchWholeWords := none, world := "W" }

/-- A host `JSON.parse` oracle for the single body
`{"url":"QUJDREVGRw=="}` (its actual parse result on that body). -/
def parseUrlOnly : Chars → Option JValue := fun s =>
  if s = "\x7b\"url\":\"QUJDREVGRw==\"\x7d".data then
    some (.obj [("url", .str "QUJDREVGRw==")])
  else none

/-- A host `JSON.parse` oracle for the single body
`{"b64_json":"QUJD"}` (its actual parse result on that body). -/
def parseB64Only : Chars → Option JValue := fun s =>
  if s = "\x7b\"b64_json\":\"QUJD\"\x7d".data then
    some (.obj [("b64_json", .str "QUJD")])
  else none

/-- The C6 scenario settings: character card on, everything optional off,
post-processing `none`, default system prompt. -/
def scenarioSettings : AssemblySettings :=
  { includeCharacterCard := true, includeUserPersona := false,
    includeCharacterImage := false, lorebookEnabled := false,
    lorebookIncludeInPrompt := true,
    textLlm :=
      { systemPrompt := defaultSystemPrompt, usePreset := false,
        hasUploadedPreset := false, postProcessing := "none",
        usePrefill := false, prefillContent := "" } }

/-- Valid generation settings for the single-flight scenario. -/
def scenarioGenSettings : GenSettings :=
  { enabled := true, textLlmApiUrl := "http://text.example", imageGenApiUrl := "http://image.example",
    manualPromptMode := false, editPromptBeforeSending := false }

/-- Host oracles for the single-flight scenario: one character message,
a successful text-generation and image-generation call, and an accepted
preview. -/
def scenarioGenEnv : GenEnv :=
  { chat := [{ mes := "hello", is_user := false, is_system := false }]
    manualPromptResults := fun _ => none
    transformResults := fun _ => .ok "a prompt"
    editResults := fun _ => none
    imageResults := fun _ => .ok "http://image.example/i.png"
    popupResults := fun _ => .accepted }

/-- A minimal valid preset document: one meaningful prompt `a`, one
disabled ordering entry `b`, the sentinel ordering bucket. -/
def presetDocOk : JValue :=
  .obj
    [("prompts", .arr
        [.obj [("identifier", .str "a"), ("role", .str "system"),
               ("content", .str "Describe the scene")],
         .obj [("identifier", .str "b"), ("role", .str "system"),
               ("content", .str "Unused")]]),
     ("prompt_order", .arr
        [.obj [("character_id", .num 100001),
               ("order", .arr
                  [.obj [("identifier", .str "b"), ("enabled", .bool false)],
                   .obj [("identifier", .str "a"), ("enabled", .bool true)]])]])]

/-- A document whose `prompt_order` lacks the sentinel bucket. -/
def presetDocNoSentinel : JValue :=
  .obj
    [("prompts", .arr []),
     ("prompt_order", .arr [.obj [("character_id", .num 100000), ("order", .arr [])]])]

/-! # Theorems

Helper lemmas first, then one theorem per claim (with its witness or
counterexample), in claim order. -/

/-- `semiStrictMap` is idempotent on a single message. -/
theorem semiStrictMap_idem (m : ChatMsg) : semiStrictMap (semiStrictMap m) = semiStrictMap m := by
  unfold semiStrictMap
  by_cases h : m.role = "system"
  · simp [h]
  · simp [h]

/-- Mapping `semiStrictMap` twice is mapping it once. -/
theorem map_semiStrictMap_idem (l : List ChatMsg) :
    (l.map semiStrictMap).map semiStrictMap = l.map semiStrictMap := by
  induction l with
  | nil => rfl
  | cons m t ih => simp [semiStrictMap_idem m, ih]

/-- Unfolding equation of `strictGo` on a cons cell. -/
theorem strictGo_cons (found : Bool) (m : ChatMsg) (t : List ChatMsg) :
    strictGo found (m :: t) =
      if m.role == "system" then
        (if found then { role := "user", content := m.content } :: strictGo true t
         else m :: strictGo true t)
      else m :: strictGo found t := rfl

/-- Once the first system message was seen, the strict pass is the
semi-strict map. -/
theorem strictGo_true_eq_map (l : List ChatMsg) : strictGo true l = l.map semiStrictMap := by
  induction l with
  | nil => rfl
  | cons m t ih =>
    rw [strictGo_cons]
    by_cases h : m.role = "system"
    · simp [h, ih, semiStrictMap]
    · simp [h, ih, semiStrictMap]

/-- The strict pass is idempotent. -/
theorem strictGo_false_idem (l : List ChatMsg) :
    strictGo false (strictGo false l) = strictGo false l := by
  induction l with
  | nil => rfl
  | cons m t ih =>
    by_cases h : m.role = "system"
    · rw [show strictGo false (m :: t) = m :: strictGo true t by
        rw [strictGo_cons]; simp [h]]
      rw [show strictGo false (m :: strictGo true t) = m :: strictGo true (strictGo true t) by
        rw [strictGo_cons]; simp [h]]
      rw [strictGo_true_eq_map, strictGo_true_eq_map, map_semiStrictMap_idem]
    · rw [show strictGo false (m :: t) = m :: strictGo false t by
        rw [strictGo_cons]; simp [h]]
      rw [show strictGo false (m :: strictGo false t) = m :: strictGo false (strictGo false t) by
        rw [strictGo_cons]; simp [h]]
      rw [ih]

/-- C3: for every message list, `applyPostProcessing` is idempotent in the
`semi-strict` mode and in the `strict` mode:
`applyPostProcessing(applyPostProcessing(msgs, mode), mode) =
applyPostProcessing(msgs, mode)`. -/
theorem c3_applyPostProcessing_idempotent (msgs : List ChatMsg) :
    applyPostProcessing (applyPostProcessing msgs "semi-strict") "semi-strict" =
      applyPostProcessing msgs "semi-strict" ∧
    applyPostProcessing (applyPostProcessing msgs "strict") "strict" =
      applyPostProcessing msgs "strict" := by
  cases msgs with
  | nil => exact ⟨rfl, rfl⟩
  | cons m t =>
    constructor
    · show applyPostProcessing (applyPostProcessing (m :: t) "semi-strict") "semi-strict" = _
      rw [show applyPostProcessing (m :: t) "semi-strict" = (m :: t).map semiStrictMap from rfl]
      rw [show applyPostProcessing ((m :: t).map semiStrictMap) "semi-strict"
            = ((m :: t).map semiStrictMap).map semiStrictMap from rfl]
      exact map_semiStrictMap_idem (m :: t)
    · rw [show applyPostProcessing (m :: t) "strict" = strictGo false (m :: t) from rfl]
      have hne : strictGo false (m :: t) ≠ [] := by
        unfold strictGo
        by_cases h : m.role = "system" <;> simp [h]
      cases hsg : strictGo false (m :: t) with
      | nil => exact absurd hsg hne
      | cons m' t' =>
        rw [show applyPostProcessing (m' :: t') "strict" = strictGo false (m' :: t') from rfl]
        rw [← hsg, strictGo_false_idem]

/-- `postRel` is reflexive. -/
theorem postRel_refl (m : ChatMsg) : postRel m m :=
  ⟨rfl, Or.inl rfl, fun _ => rfl⟩

/-- `semiStrictMap` satisfies the frame relation. -/
theorem postRel_semiStrictMap (m : ChatMsg) : postRel m (semiStrictMap m) := by
  unfold semiStrictMap
  by_cases h : m.role = "system"
  · simp only [h]
    exact ⟨rfl, Or.inr ⟨h, rfl⟩, fun hn => absurd h hn⟩
  · simp only [beq_iff_eq, h, if_false]
    exact postRel_refl m


/-- `strictGo` satisfies the frame relation pointwise. -/
theorem forall2_strictGo (found : Bool) (l : List ChatMsg) :
    List.Forall₂ postRel l (strictGo found l) := by
  induction l generalizing found with
  | nil => exact List.Forall₂.nil
  | cons m t ih =>
    rw [strictGo_cons]
    by_cases h : m.role = "system"
    · cases found with
      | true =>
        simp only [h, beq_self_eq_true, if_true]
        exact List.Forall₂.cons ⟨rfl, Or.inr ⟨h, rfl⟩, fun hn => absurd h hn⟩ (ih true)
      | false =>
        simp only [h, beq_self_eq_true, if_true, if_false, Bool.false_eq_true]
        exact List.Forall₂.cons (postRel_refl m) (ih true)
    · simp only [beq_iff_eq, h, if_false]
      exact List.Forall₂.cons (postRel_refl m) (ih found)

/-- Mapping `semiStrictMap` satisfies the frame relation pointwise. -/
theorem forall2_map_semiStrictMap (l : List ChatMsg) :
    List.Forall₂ postRel l (l.map semiStrictMap) := by
  induction l with
  | nil => exact List.Forall₂.nil
  | cons m t ih => exact List.Forall₂.cons (postRel_semiStrictMap m) ih

/-- C9: `applyPostProcessing` preserves the length and order of the message
list and the content of every message; the only change it can make to a
message is rewriting a `system` role to `user`, and every non-`system`
message is returned unchanged. -/
theorem c9_applyPostProcessing_frame (msgs : List ChatMsg) (mode : String) :
    (applyPostProcessing msgs mode).length = msgs.length ∧
    List.Forall₂ postRel msgs (applyPostProcessing msgs mode) := by
  have hsame : List.Forall₂ postRel msgs msgs :=
    List.forall₂_same.mpr fun m _ => postRel_refl m
  have hmap : List.Forall₂ postRel msgs (msgs.map semiStrictMap) :=
    forall2_map_semiStrictMap msgs
  have key : List.Forall₂ postRel msgs (applyPostProcessing msgs mode) := by
    unfold applyPostProcessing
    by_cases h0 : msgs.isEmpty || mode == "none"
    · simp only [h0, if_true]; exact hsame
    · simp only [h0, if_false]
      by_cases h1 : mode = "semi-strict"
      · simp only [h1, beq_self_eq_true, if_true]; exact hmap
      · simp only [beq_iff_eq, h1, if_false]
        by_cases h2 : mode = "strict"
        · simp only [h2, beq_self_eq_true, if_true]; exact forall2_strictGo false msgs
        · simp only [beq_iff_eq, h2, if_false]; exact hsame
  exact ⟨(key.length_eq).symm, key⟩

/-- Unfolding equation of the backwards scan. -/
theorem scanBack_succ (chat : List ChatLogMsg) (i : Nat) :
    scanBackForCharacterMessage chat (i + 1) =
      match chat[i]? with
      | some m =>
        if !m.is_user && !m.is_system then some (m.mes, i)
        else scanBackForCharacterMessage chat i
      | none => scanBackForCharacterMessage chat i := rfl

/-- The scan step when index `i` holds a message. -/
theorem scanBack_succ_some (chat : List ChatLogMsg) (i : Nat) (m : ChatLogMsg)
    (hci : chat[i]? = some m) :
    scanBackForCharacterMessage chat (i + 1) =
      if !m.is_user && !m.is_system then some (m.mes, i)
      else scanBackForCharacterMessage chat i := by
  rw [scanBack_succ, hci]

/-- The scan step when index `i` is out of range. -/
theorem scanBack_succ_none (chat : List ChatLogMsg) (i : Nat)
    (hci : chat[i]? = none) :
    scanBackForCharacterMessage chat (i + 1) = scanBackForCharacterMessage chat i := by
  rw [scanBack_succ, hci]

/-- When the backwards scan fails, every scanned message is a user or
system message. -/
theorem scanBack_none_spec (chat : List ChatLogMsg) :
    ∀ n, scanBackForCharacterMessage chat n = none →
      ∀ j, j < n → ∀ m, chat[j]? = some m → (m.is_user = true ∨ m.is_system = true) := by
  intro n
  induction n with
  | zero => intro _ j hj; omega
  | succ i ih =>
    intro h j hj m hm
    cases hci : chat[i]? with
    | some mi =>
      rw [scanBack_succ_some chat i mi hci] at h
      by_cases hc : (!mi.is_user && !mi.is_system) = true
      · rw [if_pos hc] at h; exact absurd h (by simp)
      · rw [if_neg hc] at h
        rcases Nat.lt_succ_iff_lt_or_eq.mp hj with hlt | heq
        · exact ih h j hlt m hm
        · subst heq
          rw [hci] at hm
          cases hm
          cases hu : m.is_user with
          | true => exact Or.inl rfl
          | false =>
            cases hs : m.is_system with
            | true => exact Or.inr rfl
            | false => exact absurd (by simp [hu, hs]) hc
    | none =>
      rw [scanBack_succ_none chat i hci] at h
      rcases Nat.lt_succ_iff_lt_or_eq.mp hj with hlt | heq
      · exact ih h j hlt m hm
      · subst heq; rw [hci] at hm; cases hm

/-- When the backwards scan succeeds, it returns the most recent
non-user non-system message among the scanned indices. -/
theorem scanBack_some_spec (chat : List ChatLogMsg) :
    ∀ n s i, scanBackForCharacterMessage chat n = some (s, i) →
      i < n ∧ ∃ m, chat[i]? = some m ∧ m.is_user = false ∧ m.is_system = false ∧
        s = m.mes ∧
        ∀ j, i < j → j < n → ∀ m2, chat[j]? = some m2 →
          (m2.is_user = true ∨ m2.is_system = true) := by
  intro n
  induction n with
  | zero => intro s i h; exact absurd h (by simp [scanBackForCharacterMessage])
  | succ k ih =>
    intro s i h
    cases hck : chat[k]? with
    | some mk =>
      rw [scanBack_succ_some chat k mk hck] at h
      by_cases hc : (!mk.is_user && !mk.is_system) = true
      · rw [if_pos hc] at h
        cases h
        have hflags : mk.is_user = false ∧ mk.is_system = false := by
          simpa [Bool.and_eq_true, Bool.not_eq_true'] using hc
        exact ⟨Nat.lt_succ_self k,
          mk, hck, hflags.1, hflags.2, rfl, fun j hj1 hj2 _ _ => by omega⟩
      · rw [if_neg hc] at h
        obtain ⟨hik, m, hm, hu, hs, hmes, hmax⟩ := ih s i h
        refine ⟨Nat.lt_succ_of_lt hik, m, hm, hu, hs, hmes, fun j hj1 hj2 m2 hm2 => ?_⟩
        rcases Nat.lt_succ_iff_lt_or_eq.mp hj2 with hlt | heq
        · exact hmax j hj1 hlt m2 hm2
        · subst heq
          rw [hck] at hm2
          cases hm2
          cases hu2 : mk.is_user with
          | true => exact Or.inl rfl
          | false =>
            cases hs2 : mk.is_system with
            | true => exact Or.inr rfl
            | false => exact absurd (by simp [hu2, hs2]) hc
    | none =>
      rw [scanBack_succ_none chat k hck] at h
      obtain ⟨hik, m, hm, hu, hs, hmes, hmax⟩ := ih s i h
      refine ⟨Nat.lt_succ_of_lt hik, m, hm, hu, hs, hmes, fun j hj1 hj2 m2 hm2 => ?_⟩
      rcases Nat.lt_succ_iff_lt_or_eq.mp hj2 with hlt | heq
      · exact hmax j hj1 hlt m2 hm2
      · subst heq; rw [hck] at hm2; cases hm2

/-- C10: with an explicit index, `getCharacterMessage` returns the message
at that index exactly when it exists and is not a user message (system
messages are allowed), and `null` otherwise; with no index it returns the
most recent message that is neither a user nor a system message, or `null`
when the chat is empty or no such message exists. -/
theorem c10_getCharacterMessage_spec :
    (∀ (chat : List ChatLogMsg) (i : Nat) (m : ChatLogMsg), chat[i]? = some m →
        m.is_user = false → getCharacterMessage chat (some i) = some (m.mes, i)) ∧
    (∀ (chat : List ChatLogMsg) (i : Nat) (m : ChatLogMsg), chat[i]? = some m →
        m.is_user = true → getCharacterMessage chat (some i) = none) ∧
    (∀ (chat : List ChatLogMsg) (i : Nat), chat.length ≤ i →
        getCharacterMessage chat (some i) = none) ∧
    (∀ (chat : List ChatLogMsg) (s : String) (i : Nat),
        getCharacterMessage chat none = some (s, i) →
        ∃ m, chat[i]? = some m ∧ m.is_user = false ∧ m.is_system = false ∧ s = m.mes ∧
          ∀ (j : Nat) (m2 : ChatLogMsg), i < j → chat[j]? = some m2 →
            (m2.is_user = true ∨ m2.is_system = true)) ∧
    (∀ (chat : List ChatLogMsg), getCharacterMessage chat none = none →
        ∀ (j : Nat) (m2 : ChatLogMsg), chat[j]? = some m2 →
          (m2.is_user = true ∨ m2.is_system = true)) := by
  have hne : ∀ (chat : List ChatLogMsg) (i : Nat) (m : ChatLogMsg),
      chat[i]? = some m → chat.isEmpty = false := by
    intro chat i m hm
    cases chat with
    | nil => simp at hm
    | cons a t => rfl
  refine ⟨?_, ?_, ?_, ?_, ?_⟩
  · intro chat i m hm hu
    unfold getCharacterMessage
    rw [hne chat i m hm]
    simp only [Bool.false_eq_true, if_false]
    rw [hm]
    simp [hu]
  · intro chat i m hm hu
    unfold getCharacterMessage
    rw [hne chat i m hm]
    simp only [Bool.false_eq_true, if_false]
    rw [hm]
    simp [hu]
  · intro chat i hlen
    unfold getCharacterMessage
    cases hemp : chat.isEmpty with
    | true => simp
    | false =>
      simp only [Bool.false_eq_true, if_false]
      rw [List.getElem?_eq_none hlen]
  · intro chat s i h
    unfold getCharacterMessage at h
    cases hemp : chat.isEmpty with
    | true => rw [hemp] at h; simp at h
    | false =>
      rw [hemp] at h
      simp only [Bool.false_eq_true, if_false] at h
      obtain ⟨_, m, hm, hu, hs, hmes, hmax⟩ := scanBack_some_spec chat chat.length s i h
      refine ⟨m, hm, hu, hs, hmes, fun j m2 hj hm2 => ?_⟩
      by_cases hjl : j < chat.length
      · exact hmax j hj hjl m2 hm2
      · rw [List.getElem?_eq_none (Nat.le_of_not_lt hjl)] at hm2; cases hm2
  · intro chat h j m2 hm2
    unfold getCharacterMessage at h
    cases hemp : chat.isEmpty with
    | true =>
      cases chat with
      | nil => simp at hm2
      | cons a t => simp at hemp
    | false =>
      rw [hemp] at h
      simp only [Bool.false_eq_true, if_false] at h
      by_cases hjl : j < chat.length
      · exact scanBack_none_spec chat chat.length h j hjl m2 hm2
      · rw [List.getElem?_eq_none (Nat.le_of_not_lt hjl)] at hm2; cases hm2

/-- Witness for C10 at concrete inputs: a two-message chat whose last
message is a system message; the explicit index 1 returns it, the default
search skips it back to index 0. -/
theorem c10_witness :
    getCharacterMessage
      [{ mes := "a", is_user := false, is_system := false },
       { mes := "sys", is_user := false, is_system := true }] (some 1) = some ("sys", 1) ∧
    getCharacterMessage
      [{ mes := "a", is_user := false, is_system := false },
       { mes := "sys", is_user := false, is_system := true }] none = some ("a", 0) := by
  constructor
  · exact c10_getCharacterMessage_spec.1
      [{ mes := "a", is_user := false, is_system := false },
       { mes := "sys", is_user := false, is_system := true }] 1
      { mes := "sys", is_user := false, is_system := true } rfl rfl
  · rfl

/-- C5: `matchKeyword` is total over every pattern/text/flag combination —
the embedding with explicit host exceptions always returns `.ok` — and a
regex-delimited keyword whose pattern the host engine rejects (an invalid
regular expression) is treated as a non-match: the result is `.ok false`. -/
theorem c5_matchKeyword_never_throws :
    (∀ (engine : RegexEngine) (keyword text : Chars) (cs ww : Bool),
        ∃ b, matchKeyword engine keyword text cs ww = .ok b) ∧
    (∀ (engine : RegexEngine) (keyword text : Chars) (cs ww : Bool)
        (body flags : Chars) (e : String),
        parseRegexKeyword keyword = some (body, flags) →
        engine.compile body (effectiveFlags cs flags) = .error e →
        matchKeyword engine keyword text cs ww = .ok false) := by
  constructor
  · intro engine keyword text cs ww
    unfold matchKeyword
    by_cases h0 : (keyword.isEmpty || text.isEmpty) = true
    · exact ⟨false, by rw [if_pos h0]⟩
    · rw [if_neg h0]
      cases hp : parseRegexKeyword keyword with
      | some bf =>
        obtain ⟨body, flags0⟩ := bf
        simp only [hp]
        cases hc : engine.compile body (effectiveFlags cs flags0) with
        | error e => exact ⟨false, rfl⟩
        | ok test => exact ⟨test text, rfl⟩
      | none =>
        simp only [hp]
        by_cases hw : ww = true
        · exact ⟨_, by rw [if_pos hw]⟩
        · exact ⟨_, by rw [if_neg hw]⟩
  · intro engine keyword text cs ww body flags e hp hc
    unfold matchKeyword
    by_cases h0 : (keyword.isEmpty || text.isEmpty) = true
    · rw [if_pos h0]
    · rw [if_neg h0]
      simp only [hp, hc]

/-- Witness for C5 at the spec's example: the malformed pattern `/[/` is
regex-delimited with body `[`; an engine that rejects it yields a
non-match on the text `abc`. -/
theorem c5_witness :
    matchKeyword failingEngine "/[/".data "abc".data false false = .ok false := by
  exact c5_matchKeyword_never_throws.2 failingEngine "/[/".data "abc".data false false
    "[".data "".data "SyntaxError: invalid regular expression" (by decide) rfl

/-- The constant-entry loop respects both budgets. -/
theorem addConstantEntries_bounds (maxE maxT : Nat) :
    ∀ (es : List LoreEntry) (acc : List TriggeredEntry) (tot : Nat),
      acc.length ≤ maxE → tot ≤ maxT →
      (addConstantEntries maxE maxT es acc tot).1.length ≤ maxE ∧
      (addConstantEntries maxE maxT es acc tot).2 ≤ maxT := by
  intro es
  induction es with
  | nil => intro acc tot h1 h2; exact ⟨h1, h2⟩
  | cons e rest ih =>
    intro acc tot h1 h2
    unfold addConstantEntries
    by_cases hb1 : maxE ≤ acc.length
    · rw [if_pos hb1]; exact ⟨h1, h2⟩
    · rw [if_neg hb1]
      by_cases hb2 : maxT ≤ tot
      · rw [if_pos hb2]; exact ⟨h1, h2⟩
      · rw [if_neg hb2]
        by_cases hb3 : tot + entryTokenEstimate e ≤ maxT
        · rw [if_pos hb3]
          refine ih _ _ ?_ hb3
          rw [List.length_append, List.length_singleton]
          omega
        · rw [if_neg hb3]; exact ih _ _ h1 h2

/-- The keyword-entry loop respects both budgets. -/
theorem addKeywordEntries_bounds (engine : RegexEngine) (maxE maxT : Nat)
    (chatText : Chars) (cs ww : Bool) (rolls : Nat → ℚ) :
    ∀ (es : List LoreEntry) (rollIdx : Nat) (acc : List TriggeredEntry) (tot : Nat),
      acc.length ≤ maxE → tot ≤ maxT →
      (addKeywordEntries engine maxE maxT chatText cs ww rolls es rollIdx acc tot).1.length ≤ maxE ∧
      (addKeywordEntries engine maxE maxT chatText cs ww rolls es rollIdx acc tot).2 ≤ maxT := by
  intro es
  induction es with
  | nil => intro rollIdx acc tot h1 h2; exact ⟨h1, h2⟩
  | cons e rest ih =>
    intro rollIdx acc tot h1 h2
    unfold addKeywordEntries
    by_cases hb1 : maxE ≤ acc.length
    · rw [if_pos hb1]; exact ⟨h1, h2⟩
    · rw [if_neg hb1]
      by_cases hb2 : maxT ≤ tot
      · rw [if_pos hb2]; exact ⟨h1, h2⟩
      · rw [if_neg hb2]
        by_cases hb3 : (trimL e.content.data).isEmpty = true
        · rw [if_pos hb3]; exact ih _ _ _ h1 h2
        · rw [if_neg hb3]
          by_cases hb4 : e.disable = true
          · rw [if_pos hb4]; exact ih _ _ _ h1 h2
          · rw [if_neg hb4]
            by_cases hb5 : ((e.useProbability && decide (e.probability < 100)) &&
                decide (e.probability < rolls rollIdx)) = true
            · rw [if_pos hb5]; exact ih _ _ _ h1 h2
            · rw [if_neg hb5]
              by_cases hb6 : entryMatchesText engine e chatText cs ww false = true
              · rw [if_pos hb6]
                by_cases hb7 : tot + entryTokenEstimate e ≤ maxT
                · rw [if_pos hb7]
                  refine ih _ _ _ ?_ hb7
                  rw [List.length_append, List.length_singleton]
                  omega
                · rw [if_neg hb7]; exact ih _ _ _ h1 h2
              · rw [if_neg hb6]; exact ih _ _ _ h1 h2

/-- C1 (amended): the knowledge selector respects the *effective* budgets:
its entry count never exceeds `maxEntries || 10` and its token estimate
never exceeds `maxTokens || 500`; a configured budget of `0` falls back to
the default budget (10 entries / 500 tokens) instead of producing an empty
result. -/
theorem c1_amended_lorebook_budget (engine : RegexEngine) (settings : LorebookSettings)
    (wiDepth : Nat) (cs ww : Bool) (allEntries : List LoreEntry) (chat : List String)
    (rolls : Nat → ℚ) :
    (getTriggeredLorebookEntries engine settings wiDepth cs ww allEntries chat rolls).entries.length
        ≤ jsOrNat settings.maxEntries 10 ∧
    (getTriggeredLorebookEntries engine settings wiDepth cs ww allEntries chat rolls).totalTokens
        ≤ jsOrNat settings.maxTokens 500 := by
  unfold getTriggeredLorebookEntries
  by_cases h0 : (!settings.enabled) = true
  · rw [if_pos h0]; exact ⟨Nat.zero_le _, Nat.zero_le _⟩
  · rw [if_neg h0]
    by_cases h1 : allEntries.isEmpty = true
    · rw [if_pos h1]; exact ⟨Nat.zero_le _, Nat.zero_le _⟩
    · rw [if_neg h1]
      simp only
      set maxE := jsOrNat settings.maxEntries 10 with hmaxE
      set maxT := jsOrNat settings.maxTokens 500 with hmaxT
      set constantEntries := allEntries.filter fun e =>
        e.constant && !e.disable && !(trimL e.content.data).isEmpty
      set keywordEntries := allEntries.filter fun e => !e.constant
      set chatText := List.intercalate ['\n']
        ((chat.drop (chat.length - jsOrNat settings.scanDepth (jsOrNat wiDepth 5))).map
          String.data)
      set afterConstant :=
        (if settings.includeConstant then
          addConstantEntries maxE maxT constantEntries [] 0
        else ([], 0)) with hac
      have hacBounds : afterConstant.1.length ≤ maxE ∧ afterConstant.2 ≤ maxT := by
        rw [hac]
        by_cases hic : settings.includeConstant = true
        · rw [if_pos hic]
          exact addConstantEntries_bounds maxE maxT constantEntries [] 0
            (Nat.zero_le _) (Nat.zero_le _)
        · rw [if_neg hic]; exact ⟨Nat.zero_le _, Nat.zero_le _⟩
      exact addKeywordEntries_bounds engine maxE maxT chatText cs ww rolls
        keywordEntries 0 afterConstant.1 afterConstant.2 hacBounds.1 hacBounds.2

/-- Counterexample to C1 as stated: with both budgets configured to `0`
(`maxEntries = 0`, `maxTokens = 0`) and one enabled constant entry, the
selector returns one entry with a positive token estimate — the `|| 10` /
`|| 500` defaulting makes a zero budget behave like the default budget, not
like an empty one. -/
theorem c1_counterexample :
    (getTriggeredLorebookEntries failingEngine lbSettingsZeroBudget 2 false false
        [constEntryA] ["hi"] (fun _ => 0)).entries.length = 1 ∧
    lbSettingsZeroBudget.maxEntries = 0 ∧ lbSettingsZeroBudget.maxTokens = 0 ∧
    ¬((getTriggeredLorebookEntries failingEngine lbSettingsZeroBudget 2 false false
        [constEntryA] ["hi"] (fun _ => 0)).entries.length ≤ lbSettingsZeroBudget.maxEntries) ∧
    (getTriggeredLorebookEntries failingEngine lbSettingsZeroBudget 2 false false
        [constEntryA] ["hi"] (fun _ => 0)).entries ≠ [] := by
  refine ⟨rfl, rfl, rfl, ?_, ?_⟩
  · decide
  · decide

/-- An ordering entry whose `enabled` is falsy contributes nothing. -/
theorem orderEntryPrompt_disabled (prompts : List JValue) (entry : JValue)
    (hdis : jsTruthy (jsGetField entry "enabled") = false) :
    orderEntryPrompt prompts entry = none := by
  unfold orderEntryPrompt
  rw [hdis]
  simp

/-- Unfolding equation of the order-entry loop on a cons cell. -/
theorem extractEnabledPrompts_cons (prompts : List JValue) (entry : JValue)
    (rest : List JValue) :
    extractEnabledPrompts prompts (entry :: rest) =
      if isNullJ entry = true then
        .error "Failed to parse preset file: Cannot read properties of null (reading enabled)"
      else
        match orderEntryPrompt prompts entry with
        | some p => (extractEnabledPrompts prompts rest).map fun tail => p :: tail
        | none => extractEnabledPrompts prompts rest := rfl

/-- Removing a disabled (non-`null`) ordering entry from the order list
does not change the extracted prompts. -/
theorem extractEnabledPrompts_omits_disabled (prompts : List JValue)
    (entry : JValue) (hnn : isNullJ entry = false)
    (hdis : jsTruthy (jsGetField entry "enabled") = false) :
    ∀ (pre post : List JValue),
      extractEnabledPrompts prompts (pre ++ entry :: post) =
        extractEnabledPrompts prompts (pre ++ post) := by
  intro pre
  induction pre with
  | nil =>
    intro post
    show extractEnabledPrompts prompts (entry :: post) = extractEnabledPrompts prompts post
    rw [extractEnabledPrompts_cons, hnn]
    simp only [Bool.false_eq_true, if_false]
    rw [orderEntryPrompt_disabled prompts entry hdis]
  | cons e pre' ih =>
    intro post
    show extractEnabledPrompts prompts (e :: (pre' ++ entry :: post)) =
      extractEnabledPrompts prompts (e :: (pre' ++ post))
    rw [extractEnabledPrompts_cons, extractEnabledPrompts_cons]
    by_cases hne : isNullJ e = true
    · rw [if_pos hne, if_pos hne]
    · rw [if_neg hne, if_neg hne]
      rw [ih post]

/-- C7: `parsePresetFile` rejects documents whose fragments collection or
ordering collection is absent or not an array, and documents whose sentinel
ordering bucket (`character_id === 100001`) cannot be found, each with the
corresponding `Invalid preset format` error; an accepted canonical document
yields exactly the prompts extracted from its ordering entries, and every
ordering entry with falsy `enabled` is omitted from that output. -/
theorem c7_parsePresetFile_spec :
    (∀ (doc : JValue) (fn : String), isNullJ doc = false →
        jsIsArray (jsGetField doc "prompts") = false →
        parsePresetFile doc fn = .error "Invalid preset format: missing prompts array") ∧
    (∀ (doc : JValue) (fn : String) (P : List JValue),
        jsGetField doc "prompts" = some (.arr P) →
        jsIsArray (jsGetField doc "prompt_order") = false →
        isNullJ doc = false →
        parsePresetFile doc fn = .error "Invalid preset format: missing prompt_order array") ∧
    (∀ (doc : JValue) (fn : String) (P O : List JValue),
        jsGetField doc "prompts" = some (.arr P) →
        jsGetField doc "prompt_order" = some (.arr O) →
        isNullJ doc = false →
        P.any isNullJ = false →
        findCustomOrder O = .ok none →
        parsePresetFile doc fn =
          .error "Invalid preset format: missing custom prompt order (character_id: 100001)") ∧
    (∀ (fn : String) (P entries : List JValue), P.any isNullJ = false →
        parsePresetFile
          (.obj [("prompts", .arr P),
                 ("prompt_order", .arr [.obj [("character_id", .num 100001),
                                              ("order", .arr entries)]])]) fn =
          (extractEnabledPrompts P entries).map
            (fun ps => { name := stripJsonExt fn, prompts := ps })) ∧
    (∀ (P : List JValue) (entry : JValue) (pre post : List JValue),
        isNullJ entry = false → jsTruthy (jsGetField entry "enabled") = false →
        extractEnabledPrompts P (pre ++ entry :: post) =
          extractEnabledPrompts P (pre ++ post)) := by
  refine ⟨?_, ?_, ?_, ?_, ?_⟩
  · intro doc fn hnn hna
    unfold parsePresetFile
    rw [hnn]
    simp only [Bool.false_eq_true, if_false]
    cases hf : jsGetField doc "prompts" with
    | none => rfl
    | some v =>
      cases v with
      | arr xs => rw [hf] at hna; simp [jsIsArray] at hna
      | null => rfl
      | bool b => rfl
      | num q => rfl
      | str s => rfl
      | obj fs => rfl
  · intro doc fn P hP hna hnn
    unfold parsePresetFile
    rw [hnn]
    simp only [Bool.false_eq_true, if_false]
    rw [hP]
    cases hf : jsGetField doc "prompt_order" with
    | none => rfl
    | some v =>
      cases v with
      | arr xs => rw [hf] at hna; simp [jsIsArray] at hna
      | null => rfl
      | bool b => rfl
      | num q => rfl
      | str s => rfl
      | obj fs => rfl
  · intro doc fn P O hP hO hnn hPnn hfind
    unfold parsePresetFile
    rw [hnn]
    simp only [Bool.false_eq_true, if_false]
    rw [hP, hO]
    simp only [hPnn, Bool.false_eq_true, if_false, hfind]
  · intro fn P entries hPnn
    have h : parsePresetFile
        (.obj [("prompts", .arr P),
               ("prompt_order", .arr [.obj [("character_id", .num 100001),
                                            ("order", .arr entries)]])]) fn =
        if P.any isNullJ = true then
          .error "Failed to parse preset file: Cannot read properties of null (reading identifier)"
        else (extractEnabledPrompts P entries).map
          (fun ps => { name := stripJsonExt fn, prompts := ps }) := rfl
    rw [h, hPnn]
    simp
  · intro P entry pre post hnn hdis
    exact extractEnabledPrompts_omits_disabled P entry hnn hdis pre post

/-- Witness for C7 at concrete documents: a document without a fragments
array is rejected; a document without the sentinel ordering bucket is
rejected; the canonical two-prompt document with one disabled ordering
entry parses to exactly the one enabled prompt. -/
theorem c7_witness :
    parsePresetFile (.obj []) "x" = .error "Invalid preset format: missing prompts array" ∧
    parsePresetFile presetDocNoSentinel "x" =
      .error "Invalid preset format: missing custom prompt order (character_id: 100001)" ∧
    parsePresetFile presetDocOk "My Preset.json" =
      .ok { name := "My Preset",
            prompts := [{ identifier := .str "a", role := .str "system",
                          content := .str "Describe the scene" }] } := by
  refine ⟨?_, ?_, ?_⟩
  · exact c7_parsePresetFile_spec.1 (.obj []) "x" rfl rfl
  · exact c7_parsePresetFile_spec.2.2.1 presetDocNoSentinel "x" []
      [.obj [("character_id", .num 100000), ("order", .arr [])]] rfl rfl rfl rfl rfl
  · exact (c7_parsePresetFile_spec.2.2.2.1 "My Preset.json"
      [.obj [("identifier", .str "a"), ("role", .str "system"),
             ("content", .str "Describe the scene")],
       .obj [("identifier", .str "b"), ("role", .str "system"),
             ("content", .str "Unused")]]
      [.obj [("identifier", .str "b"), ("enabled", .bool false)],
       .obj [("identifier", .str "a"), ("enabled", .bool true)]] rfl).trans (by rfl)

set_option maxRecDepth 40000 in
/-- C6: for the message `He smiled warmly.` with character `{name: "Aria"}`,
`includeCharacterCard` enabled and persona/knowledge/preset/prefill/image
reference absent (post-processing `none`), the assembled sequence is exactly
one `system` message — the base instructions plus a character envelope
containing `Aria` — followed by one `user` message whose text ends with
`He smiled warmly.`. -/
theorem c6_assembly_scenario :
    transformMessageToImagePromptMessages scenarioSettings
        (some { name := "Aria", description := "", personality := "", scenario := "" })
        none "" [] none "He smiled warmly." =
      [{ role := "system",
         content := .text (defaultSystemPrompt
           ++ "\n\n--- Character Information (use this to describe the character accurately) ---"
           ++ "\nCharacter Name: Aria"
           ++ "\n--- End Character Information ---") },
       { role := "user",
         content := .text
           "Transform this roleplay message into an image generation prompt:\n\nHe smiled warmly." }] ∧
    containsL (defaultSystemPrompt
      ++ "\n\n--- Character Information (use this to describe the character accurately) ---"
      ++ "\nCharacter Name: Aria"
      ++ "\n--- End Character Information ---").data "Aria".data = true ∧
    endsWithL
      "Transform this roleplay message into an image generation prompt:\n\nHe smiled warmly.".data
      "He smiled warmly.".data = true := by
  refine ⟨?_, ?_, ?_⟩
  · rfl
  · decide
  · decide

/-- C8: single-flight.  (1) While a session is active (`isGenerating` set),
the synchronous entry prefix rejects a new invocation with the
already-running advisory and nothing else; (2) the whole invocation then
consists of exactly that advisory — no network call, no state change;
(3) when the entry prefix lets an invocation proceed, the flag is already
set before the first suspension point, so a second immediate invocation
observes it; (4) in the concrete back-to-back scenario, the first call
performs exactly one text-generation and one image-generation network call
and the second call produces exactly one advisory and no network calls. -/
theorem c8_single_flight :
    (∀ (settings : GenSettings) (ep : Option String) (s : GenState),
        s.isGenerating = true →
        generationEntry settings ep s =
          .reject s [.toastWarning "Already generating an image, please wait..."]) ∧
    (∀ (settings : GenSettings) (env : GenEnv) (fuel iter : Nat) (s : GenState)
        (mi : Option Nat) (ep : Option String), s.isGenerating = true →
        generateImageForMessage settings env (fuel + 1) iter s mi ep =
          (s, [.toastWarning "Already generating an image, please wait..."], true)) ∧
    (∀ (settings : GenSettings) (ep : Option String) (s s' : GenState),
        generationEntry settings ep s = .proceed s' → s'.isGenerating = true) ∧
    ((generateImageForMessage scenarioGenSettings scenarioGenEnv 1 0
        { isGenerating := false, hasAbortController := false } none none).2.1.count
        .netTextGeneration = 1 ∧
     (generateImageForMessage scenarioGenSettings scenarioGenEnv 1 0
        { isGenerating := false, hasAbortController := false } none none).2.1.count
        .netImageGeneration = 1 ∧
     (generateImageForMessage scenarioGenSettings scenarioGenEnv 1 0
        { isGenerating := false, hasAbortController := false } none none).2.1.count
        (.toastWarning "Already generating an image, please wait...") = 0 ∧
     generateImageForMessage scenarioGenSettings scenarioGenEnv 1 0
        { isGenerating := true, hasAbortController := false } none none =
       ({ isGenerating := true, hasAbortController := false },
        [.toastWarning "Already generating an image, please wait..."], true) ∧
     ((generateImageForMessage scenarioGenSettings scenarioGenEnv 1 0
        { isGenerating := false, hasAbortController := false } none none).2.1 ++
      (generateImageForMessage scenarioGenSettings scenarioGenEnv 1 0
        { isGenerating := true, hasAbortController := false } none none).2.1).count
        .netTextGeneration = 1 ∧
     ((generateImageForMessage scenarioGenSettings scenarioGenEnv 1 0
        { isGenerating := false, hasAbortController := false } none none).2.1 ++
      (generateImageForMessage scenarioGenSettings scenarioGenEnv 1 0
        { isGenerating := true, hasAbortController := false } none none).2.1).count
        .netImageGeneration = 1 ∧
     ((generateImageForMessage scenarioGenSettings scenarioGenEnv 1 0
        { isGenerating := false, hasAbortController := false } none none).2.1 ++
      (generateImageForMessage scenarioGenSettings scenarioGenEnv 1 0
        { isGenerating := true, hasAbortController := false } none none).2.1).count
        (.toastWarning "Already generating an image, please wait...") = 1) := by
  refine ⟨?_, ?_, ?_, ?_⟩
  · intro settings ep s h
    obtain ⟨g, a⟩ := s
    have hg : g = true := h
    subst hg
    rfl
  · intro settings env fuel iter s mi ep h
    obtain ⟨g, a⟩ := s
    have hg : g = true := h
    subst hg
    rfl
  · intro settings ep s s' h
    unfold generationEntry at h
    by_cases h1 : s.isGenerating = true
    · rw [if_pos h1] at h; exact EntryResult.noConfusion h
    · rw [if_neg h1] at h
      by_cases h2 : (!settings.enabled) = true
      · rw [if_pos h2] at h; exact EntryResult.noConfusion h
      · rw [if_neg h2] at h
        by_cases h3 : (decide (settings.textLlmApiUrl = "") && promptFalsy ep &&
            !settings.manualPromptMode) = true
        · rw [if_pos h3] at h
          exact EntryResult.noConfusion h
        · rw [if_neg h3] at h
          by_cases h4 : settings.imageGenApiUrl = ""
          · rw [if_pos h4] at h; exact EntryResult.noConfusion h
          · rw [if_neg h4] at h
            cases h
            rfl
  · exact ⟨by decide, by decide, by decide, by decide, by decide, by decide, by decide⟩

/-- Witness for C8 at concrete inputs: an active session rejects a new
invocation with exactly the advisory, and a passing entry has the flag
set. -/
theorem c8_witness :
    generateImageForMessage scenarioGenSettings scenarioGenEnv 3 0
      { isGenerating := true, hasAbortController := true } (some 0) none =
      ({ isGenerating := true, hasAbortController := true },
       [.toastWarning "Already generating an image, please wait..."], true) ∧
    generationEntry scenarioGenSettings none
        { isGenerating := false, hasAbortController := false } =
      .proceed { isGenerating := true, hasAbortController := false } ∧
    GenState.isGenerating { isGenerating := true, hasAbortController := false } = true := by
  refine ⟨?_, rfl, ?_⟩
  · exact c8_single_flight.2.1 scenarioGenSettings scenarioGenEnv 2 0
      { isGenerating := true, hasAbortController := true } (some 0) none rfl
  · exact c8_single_flight.2.2.1 scenarioGenSettings none
      { isGenerating := false, hasAbortController := false }
      { isGenerating := true, hasAbortController := false } rfl

/-- A span pass is the identity on a string without `<`. -/
theorem spanPassF_no_lt : ∀ (f : Nat) (s : Chars), (∀ c ∈ s, c ≠ '<') →
    spanPassF f s = s := by
  intro f
  induction f with
  | zero => intro s _; rfl
  | succ f ih =>
    intro s hs
    cases s with
    | nil => rfl
    | cons c rest =>
      have hc : c ≠ '<' := hs c (List.mem_cons_self c rest)
      have hcond : (c == '<' && startsWithCI rest ['s', 'p', 'a', 'n']) = false := by
        simp [hc]
      unfold spanPassF
      rw [hcond]
      simp only [Bool.false_eq_true, if_false]
      rw [ih rest fun x hx => hs x (List.mem_cons_of_mem c hx)]

/-- A pair-removal pass is the identity on a string without `<`. -/
theorem pairPassF_no_lt : ∀ (f : Nat) (s : Chars), (∀ c ∈ s, c ≠ '<') →
    pairPassF f s = s := by
  intro f
  induction f with
  | zero => intro s _; rfl
  | succ f ih =>
    intro s hs
    cases s with
    | nil => rfl
    | cons c rest =>
      have hc : c ≠ '<' := hs c (List.mem_cons_self c rest)
      have hcond : (c == '<') = false := by simp [hc]
      unfold pairPassF
      rw [hcond]
      simp only [Bool.false_eq_true, if_false]
      rw [ih rest fun x hx => hs x (List.mem_cons_of_mem c hx)]

/-- An orphan-strip pass is the identity on a string without `<`. -/
theorem orphanPassF_no_lt : ∀ (f : Nat) (s : Chars), (∀ c ∈ s, c ≠ '<') →
    orphanPassF f s = s := by
  intro f
  induction f with
  | zero => intro s _; rfl
  | succ f ih =>
    intro s hs
    cases s with
    | nil => rfl
    | cons c rest =>
      have hc : c ≠ '<' := hs c (List.mem_cons_self c rest)
      have hcond : (c == '<' && !slashFontAt rest) = false := by simp [hc]
      unfold orphanPassF
      rw [hcond]
      simp only [Bool.false_eq_true, if_false]
      rw [ih rest fun x hx => hs x (List.mem_cons_of_mem c hx)]

/-- The span loop is the identity on a string without `<`. -/
theorem spanLoop_no_lt (n : Nat) (s : Chars) (hs : ∀ c ∈ s, c ≠ '<') :
    spanLoop n s = s := by
  cases n with
  | zero => rfl
  | succ n =>
    unfold spanLoop
    rw [spanPassF_no_lt (s.length + 1) s hs]
    simp

/-- The pair loop is the identity on a string without `<`. -/
theorem pairLoop_no_lt (n : Nat) (s : Chars) (hs : ∀ c ∈ s, c ≠ '<') :
    pairLoop n s = s := by
  cases n with
  | zero => rfl
  | succ n =>
    unfold pairLoop
    rw [pairPassF_no_lt (s.length + 1) s hs]
    simp

/-- Unfolding equation of `collapseGo` on a cons cell. -/
theorem collapseGo_cons (c : Char) (rest : Chars) (p : Nat) :
    collapseGo (c :: rest) p =
      if c == '\n' then collapseGo rest (p + 1)
      else emitRun p ++ (c :: collapseGo rest 0) := rfl

/-- Unfolding equation of `hasRun4` on a cons cell. -/
theorem hasRun4_cons (c : Char) (rest : Chars) (k : Nat) :
    hasRun4 (c :: rest) k =
      if c == '\n' then (decide (4 ≤ k + 1) || hasRun4 rest (k + 1))
      else hasRun4 rest 0 := rfl

/-- `hasRun4` is monotone in the pending-run counter. -/
theorem hasRun4_mono : ∀ (t : Chars) (k k' : Nat), k ≤ k' →
    hasRun4 t k = true → hasRun4 t k' = true := by
  intro t
  induction t with
  | nil => intro k k' _ h; exact absurd h (by simp [hasRun4])
  | cons c rest ih =>
    intro k k' hkk h
    rw [hasRun4_cons] at h ⊢
    by_cases hc : (c == '\n') = true
    · rw [if_pos hc] at h ⊢
      simp only [Bool.or_eq_true] at h ⊢
      rcases h with h1 | h2
      · exact Or.inl (by simp only [decide_eq_true_eq] at h1 ⊢; omega)
      · exact Or.inr (ih (k + 1) (k' + 1) (by omega) h2)
    · rw [if_neg hc] at h ⊢
      exact h

/-- Contrapositive form of `hasRun4_mono`. -/
theorem hasRun4_false_mono (t : Chars) (k k' : Nat) (hkk : k' ≤ k)
    (h : hasRun4 t k = false) : hasRun4 t k' = false := by
  cases h' : hasRun4 t k' with
  | false => rfl
  | true =>
    have := hasRun4_mono t k' k hkk h'
    rw [h] at this
    cases this

/-- No newline run of four appears in a prefix when none appears in the
whole list. -/
theorem hasRun4_pref : ∀ (s v : Chars) (k : Nat), s <+: v →
    hasRun4 v k = false → hasRun4 s k = false := by
  intro s
  induction s with
  | nil => intro v k _ _; rfl
  | cons c s' ih =>
    intro v k hpre h
    cases v with
    | nil => exact absurd (List.prefix_nil.mp hpre) (by simp)
    | cons b v' =>
      obtain ⟨hcb, hpre'⟩ := List.cons_prefix_cons.mp hpre
      subst hcb
      rw [hasRun4_cons] at h ⊢
      by_cases hc : (c == '\n') = true
      · rw [if_pos hc] at h ⊢
        simp only [Bool.or_eq_false_iff] at h ⊢
        exact ⟨h.1, ih v' (k + 1) hpre' h.2⟩
      · rw [if_neg hc] at h ⊢
        exact ih v' 0 hpre' h

/-- No newline run of four appears in a suffix when none appears in the
whole list. -/
theorem hasRun4_suffix : ∀ (v s : Chars), s <:+ v →
    hasRun4 v 0 = false → hasRun4 s 0 = false := by
  intro v
  induction v with
  | nil => intro s hs _; rw [List.suffix_nil.mp hs]; rfl
  | cons c v' ih =>
    intro s hs h
    rcases List.suffix_cons_iff.mp hs with heq | hsuf
    · rw [heq]; exact h
    · refine ih s hsuf ?_
      rw [hasRun4_cons] at h
      by_cases hc : (c == '\n') = true
      · rw [if_pos hc] at h
        simp only [Bool.or_eq_false_iff] at h
        exact hasRun4_false_mono v' 1 0 (by omega) h.2
      · rw [if_neg hc] at h
        exact h

/-- A short newline run has no run of four. -/
theorem hasRun4_replicate : ∀ (m k : Nat), k + m ≤ 3 →
    hasRun4 (List.replicate m '\n') k = false := by
  intro m
  induction m with
  | zero => intro k _; rfl
  | succ m ih =>
    intro k hk
    rw [List.replicate_succ, hasRun4_cons, if_pos (by simp)]
    simp only [Bool.or_eq_false_iff]
    exact ⟨by simp only [decide_eq_false_iff_not]; omega, ih (k + 1) (by omega)⟩

/-- A short newline run followed by a non-newline and a run-free tail is
run-free. -/
theorem hasRun4_replicate_append (c : Char) (hc : c ≠ '\n') :
    ∀ (m k : Nat) (w : Chars), k + m ≤ 3 → hasRun4 w 0 = false →
      hasRun4 (List.replicate m '\n' ++ c :: w) k = false := by
  intro m
  induction m with
  | zero =>
    intro k w _ hw
    simp only [List.replicate_zero, List.nil_append]
    rw [hasRun4_cons, if_neg (by simp [hc])]
    exact hw
  | succ m ih =>
    intro k w hk hw
    rw [List.replicate_succ, List.cons_append, hasRun4_cons, if_pos (by simp)]
    simp only [Bool.or_eq_false_iff]
    exact ⟨by simp only [decide_eq_false_iff_not]; omega, ih (k + 1) w (by omega) hw⟩

/-- The collapse step never emits a run of four newlines. -/
theorem collapseGo_no4 : ∀ (u : Chars) (p : Nat), hasRun4 (collapseGo u p) 0 = false := by
  intro u
  induction u with
  | nil =>
    intro p
    show hasRun4 (emitRun p) 0 = false
    unfold emitRun
    by_cases hp : 4 ≤ p
    · rw [if_pos hp]; exact hasRun4_replicate 3 0 (by omega)
    · rw [if_neg hp]; exact hasRun4_replicate p 0 (by omega)
  | cons c rest ih =>
    intro p
    by_cases hc : (c == '\n') = true
    · rw [collapseGo_cons, if_pos hc]
      exact ih (p + 1)
    · have hcne : c ≠ '\n' := by simpa using hc
      rw [collapseGo_cons, if_neg hc]
      unfold emitRun
      by_cases hp : 4 ≤ p
      · rw [if_pos hp]
        exact hasRun4_replicate_append c hcne 3 0 _ (by omega) (ih 0)
      · rw [if_neg hp]
        exact hasRun4_replicate_append c hcne p 0 _ (by omega) (ih 0)

/-- The collapse step is the identity (up to the pending run) on a run-free
list. -/
theorem collapseGo_stable : ∀ (v : Chars) (p : Nat), p ≤ 3 → hasRun4 v p = false →
    collapseGo v p = List.replicate p '\n' ++ v := by
  intro v
  induction v with
  | nil =>
    intro p hp _
    show emitRun p = _
    unfold emitRun
    rw [if_neg (by omega), List.append_nil]
  | cons c rest ih =>
    intro p hp h
    by_cases hc : (c == '\n') = true
    · have hceq : c = '\n' := by simpa using hc
      subst hceq
      rw [collapseGo_cons, if_pos (by simp)]
      rw [hasRun4_cons, if_pos (by simp)] at h
      simp only [Bool.or_eq_false_iff, decide_eq_false_iff_not] at h
      rw [ih (p + 1) (by omega) h.2]
      rw [List.replicate_succ', List.append_assoc]
      rfl
    · have hcne : c ≠ '\n' := by simpa using hc
      rw [collapseGo_cons, if_neg hc]
      rw [hasRun4_cons, if_neg hc] at h
      rw [ih 0 (by omega) h]
      unfold emitRun
      rw [if_neg (by omega)]
      simp

/-- `dropWhile` is idempotent. -/
theorem dropWhile_dropWhile (p : Char → Bool) : ∀ (l : Chars),
    List.dropWhile p (List.dropWhile p l) = List.dropWhile p l := by
  intro l
  induction l with
  | nil => rfl
  | cons a t ih =>
    rw [List.dropWhile_cons]
    by_cases ha : p a = true
    · rw [if_pos ha]; exact ih
    · rw [if_neg ha, List.dropWhile_cons, if_neg ha]

/-- The head surviving a `dropWhile` fails the predicate. -/
theorem dropWhile_head_not (p : Char → Bool) : ∀ (l t : Chars) (c : Char),
    List.dropWhile p l = c :: t → p c = false := by
  intro l
  induction l with
  | nil => intro t c h; cases h
  | cons a t' ih =>
    intro t c h
    rw [List.dropWhile_cons] at h
    by_cases ha : p a = true
    · rw [if_pos ha] at h; exact ih t c h
    · rw [if_neg ha] at h
      cases h
      simpa using ha

/-- `trimL` is idempotent. -/
theorem trimL_idem (w : Chars) : trimL (trimL w) = trimL w := by
  have hrev : (trimL w).reverse =
      List.dropWhile isJsWhitespace (List.dropWhile isJsWhitespace w).reverse := by
    unfold trimL
    rw [List.reverse_reverse]
  have hright : List.dropWhile isJsWhitespace (trimL w).reverse = (trimL w).reverse := by
    rw [hrev, dropWhile_dropWhile]
  have hleft : List.dropWhile isJsWhitespace (trimL w) = trimL w := by
    cases ht : trimL w with
    | nil => rfl
    | cons c t' =>
      have hpre : trimL w <+: List.dropWhile isJsWhitespace w := by
        have hsuf : List.dropWhile isJsWhitespace (List.dropWhile isJsWhitespace w).reverse <:+
            (List.dropWhile isJsWhitespace w).reverse := List.dropWhile_suffix _
        have h1 := List.reverse_prefix.mpr hsuf
        rw [List.reverse_reverse] at h1
        exact h1
      rw [ht] at hpre
      cases hd : List.dropWhile isJsWhitespace w with
      | nil =>
        rw [hd] at hpre
        exact absurd (List.prefix_nil.mp hpre) (by simp)
      | cons b u =>
        rw [hd] at hpre
        obtain ⟨hcb, _⟩ := List.cons_prefix_cons.mp hpre
        subst hcb
        have hcfalse : isJsWhitespace c = false := dropWhile_head_not _ w u c hd
        rw [List.dropWhile_cons, if_neg (by simp [hcfalse])]
  show (List.dropWhile isJsWhitespace
      ((List.dropWhile isJsWhitespace (trimL w)).reverse)).reverse = trimL w
  rw [hleft, hright, List.reverse_reverse]

/-- `trimL` preserves run-freeness. -/
theorem hasRun4_trimL (v : Chars) (h : hasRun4 v 0 = false) :
    hasRun4 (trimL v) 0 = false := by
  have h1 : hasRun4 (List.dropWhile isJsWhitespace v) 0 = false :=
    hasRun4_suffix v _ (List.dropWhile_suffix _) h
  have hpre : trimL v <+: List.dropWhile isJsWhitespace v := by
    have hsuf : List.dropWhile isJsWhitespace (List.dropWhile isJsWhitespace v).reverse <:+
        (List.dropWhile isJsWhitespace v).reverse := List.dropWhile_suffix _
    have h2 := List.reverse_prefix.mpr hsuf
    rw [List.reverse_reverse] at h2
    exact h2
  exact hasRun4_pref (trimL v) _ 0 hpre h1

set_option maxRecDepth 40000 in
/-- Counterexample to C4 as stated: `cleanMessageContent` is not idempotent.
On `<font<x>y>hello` the orphan-strip pass removes the inner `<x>`, merging
the surviving `<font` prefix with the following text into the new tag
`<fonty>`, which only the second clean removes. -/
theorem c4_counterexample :
    cleanMessageContent "<font<x>y>hello" = "<fonty>hello" ∧
    cleanMessageContent (cleanMessageContent "<font<x>y>hello") = "hello" ∧
    cleanMessageContent (cleanMessageContent "<font<x>y>hello") ≠
      cleanMessageContent "<font<x>y>hello" := by
  refine ⟨by decide, by decide, by decide⟩

/-- C4 (amended): `cleanMessageContent` is idempotent on every input whose
cleaned output contains no `<` character (in particular on all markup-free
inputs); in general a removal can merge surrounding text into a new
removable tag, breaking idempotence. -/
theorem c4_amended_clean_idempotent (x : String)
    (h : ∀ c ∈ (cleanMessageContent x).data, c ≠ '<') :
    cleanMessageContent (cleanMessageContent x) = cleanMessageContent x := by
  by_cases hx : x = ""
  · subst hx; rfl
  · obtain ⟨w, hw⟩ : ∃ w, cleanMessageContent x = String.mk (trimL (collapseGo w 0)) := by
      refine ⟨orphanPassF ((pairLoop ((spanLoop (x.data.length + 1) x.data).length + 1)
            (spanLoop (x.data.length + 1) x.data)).length + 1)
          (pairLoop ((spanLoop (x.data.length + 1) x.data).length + 1)
            (spanLoop (x.data.length + 1) x.data)), ?_⟩
      unfold cleanMessageContent
      rw [if_neg hx]
    rw [hw] at h ⊢
    have hL : ∀ c ∈ trimL (collapseGo w 0), c ≠ '<' := h
    have hrun : hasRun4 (trimL (collapseGo w 0)) 0 = false :=
      hasRun4_trimL _ (collapseGo_no4 w 0)
    have htr : trimL (trimL (collapseGo w 0)) = trimL (collapseGo w 0) :=
      trimL_idem _
    by_cases hnil : String.mk (trimL (collapseGo w 0)) = ""
    · rw [hnil]; rfl
    · unfold cleanMessageContent
      rw [if_neg hnil]
      show String.mk (trimL (collapseGo (orphanPassF
          ((pairLoop ((spanLoop ((trimL (collapseGo w 0)).length + 1)
              (trimL (collapseGo w 0))).length + 1)
            (spanLoop ((trimL (collapseGo w 0)).length + 1)
              (trimL (collapseGo w 0)))).length + 1)
          (pairLoop ((spanLoop ((trimL (collapseGo w 0)).length + 1)
              (trimL (collapseGo w 0))).length + 1)
            (spanLoop ((trimL (collapseGo w 0)).length + 1)
              (trimL (collapseGo w 0))))) 0)) =
        String.mk (trimL (collapseGo w 0))
      rw [spanLoop_no_lt _ _ hL, pairLoop_no_lt _ _ hL, orphanPassF_no_lt _ _ hL]
      rw [collapseGo_stable _ 0 (by omega) hrun]
      simp only [List.replicate_zero, List.nil_append]
      rw [htr]

set_option maxRecDepth 40000 in
/-- Witness for the amended C4 at a concrete markup-free input. -/
theorem c4_amended_witness :
    cleanMessageContent (cleanMessageContent "He smiled warmly!") =
      cleanMessageContent "He smiled warmly!" :=
  c4_amended_clean_idempotent "He smiled warmly!" (by decide)

/-- `startsWithL` is the prefix relation. -/
theorem startsWithL_iff_pref : ∀ (s p : Chars), startsWithL s p = true ↔ p <+: s := by
  intro s
  induction s with
  | nil =>
    intro p
    cases p with
    | nil => simp [startsWithL]
    | cons a q => simp [startsWithL]
  | cons c cs ih =>
    intro p
    cases p with
    | nil => simp [startsWithL]
    | cons a q =>
      rw [show startsWithL (c :: cs) (a :: q) = (c == a && startsWithL cs q) from rfl]
      rw [Bool.and_eq_true, List.cons_prefix_cons, ih q]
      constructor
      · rintro ⟨h1, h2⟩; exact ⟨(beq_iff_eq.mp h1).symm, h2⟩
      · rintro ⟨h1, h2⟩; exact ⟨beq_iff_eq.mpr h1.symm, h2⟩

/-- Weakening a `startsWithL` fact to a prefix of the pattern. -/
theorem startsWithL_weaken (x p q : Chars) (hqp : q <+: p)
    (h : startsWithL x p = true) : startsWithL x q = true :=
  (startsWithL_iff_pref x q).mpr (hqp.trans ((startsWithL_iff_pref x p).mp h))

/-- A list starts with its own prefix part. -/
theorem startsWithL_append (p t : Chars) : startsWithL (p ++ t) p = true :=
  (startsWithL_iff_pref _ _).mpr (List.prefix_append p t)

/-- A concatenation starts with any prefix of its left part. -/
theorem startsWithL_append_of_pref (q p t : Chars) (hqp : q <+: p) :
    startsWithL (p ++ t) q = true :=
  startsWithL_weaken _ p q hqp (startsWithL_append p t)

/-- A case-sensitive prefix is in particular a case-insensitive one. -/
theorem startsWithCI_of_startsWithL (s p : Chars) (h : startsWithL s p = true) :
    startsWithCI s p = true := by
  unfold startsWithCI toLowerL
  exact (startsWithL_iff_pref _ _).mpr
    (((startsWithL_iff_pref s p).mp h).map jsToLowerChar)

/-- Trimming preserves a non-empty whitespace-free prefix. -/
theorem startsWithL_trimL (s p : Chars) (hp : p ≠ [])
    (hpw : ∀ c ∈ p, isJsWhitespace c = false) (h : startsWithL s p = true) :
    startsWithL (trimL s) p = true := by
  obtain ⟨t, ht⟩ := (startsWithL_iff_pref s p).mp h
  subst ht
  have hld : List.dropWhile isJsWhitespace (p ++ t) = p ++ t := by
    cases p with
    | nil => exact absurd rfl hp
    | cons c q =>
      rw [List.cons_append, List.dropWhile_cons, if_neg]
      simp [hpw c (List.mem_cons_self c q)]
  unfold trimL
  rw [hld, List.reverse_append, List.dropWhile_append]
  by_cases hte : (List.dropWhile isJsWhitespace t.reverse).isEmpty = true
  · rw [if_pos hte]
    have hrp : List.dropWhile isJsWhitespace p.reverse = p.reverse := by
      cases hq : p.reverse with
      | nil => rfl
      | cons c q =>
        rw [List.dropWhile_cons, if_neg]
        have hc : c ∈ p.reverse := by rw [hq]; exact List.mem_cons_self c q
        simp [hpw c (List.mem_reverse.mp hc)]
    rw [hrp, List.reverse_reverse]
    exact (startsWithL_iff_pref _ _).mpr (List.prefix_refl p)
  · rw [if_neg hte, List.reverse_append, List.reverse_reverse]
    exact startsWithL_append p _

/-- A truthy optional value is a present value. -/
theorem jsTruthy_some (o : Option JValue) (h : jsTruthy o = true) :
    ∃ x, o = some x ∧ o.getD .null = x := by
  cases o with
  | none => simp [jsTruthy] at h
  | some x => exact ⟨x, rfl, rfl⟩

/-- A markdown URL-tail capture starts with the tried prefix. -/
theorem mdTryUrlPre_pref (pre s u : Chars) (h : mdTryUrlPre pre s = some u) :
    startsWithL u pre = true := by
  unfold mdTryUrlPre at h
  by_cases h1 : startsWithL s pre = true
  · rw [if_pos h1] at h
    by_cases h2 : ((s.drop pre.length).takeWhile mdUrlChar).isEmpty = true
    · rw [if_pos h2] at h; cases h
    · rw [if_neg h2] at h
      by_cases h3 : (((s.drop pre.length).drop
          ((s.drop pre.length).takeWhile mdUrlChar).length).head? == some ')') = true
      · rw [if_pos h3] at h
        injection h with hu
        subst hu
        exact startsWithL_append pre _
      · rw [if_neg h3] at h; cases h
  · rw [if_neg h1] at h; cases h

/-- A markdown URL-tail capture starts with `https://` or `http://`. -/
theorem mdTryUrl_pref (s u : Chars) (h : mdTryUrl s = some u) :
    startsWithL u httpsPre = true ∨ startsWithL u httpPre = true := by
  unfold mdTryUrl at h
  cases h1 : mdTryUrlPre httpsPre s with
  | some u' =>
    rw [h1] at h
    injection h with hu
    subst hu
    exact Or.inl (mdTryUrlPre_pref httpsPre s u' h1)
  | none =>
    rw [h1] at h
    exact Or.inr (mdTryUrlPre_pref httpPre s u h)

/-- Unfolding equation of `mdGapScan` on a cons cell. -/
theorem mdGapScan_cons (c : Char) (rest : Chars) :
    mdGapScan (c :: rest) =
      if c == '\n' then none
      else if c == ']' && rest.head? == some '(' then
        match mdTryUrl (rest.drop 1) with
        | some u => some u
        | none => mdGapScan rest
      else mdGapScan rest := rfl

/-- A gap-scan capture starts with `https://` or `http://`. -/
theorem mdGapScan_pref : ∀ (s u : Chars), mdGapScan s = some u →
    startsWithL u httpsPre = true ∨ startsWithL u httpPre = true := by
  intro s
  induction s with
  | nil => intro u h; cases h
  | cons c rest ih =>
    intro u h
    rw [mdGapScan_cons] at h
    by_cases h1 : (c == '\n') = true
    · rw [if_pos h1] at h; cases h
    · rw [if_neg h1] at h
      by_cases h2 : (c == ']' && rest.head? == some '(') = true
      · rw [if_pos h2] at h
        cases h3 : mdTryUrl (rest.drop 1) with
        | some u' =>
          rw [h3] at h
          injection h with hu
          subst hu
          exact mdTryUrl_pref _ u' h3
        | none =>
          rw [h3] at h
          exact ih u h
      · rw [if_neg h2] at h
        exact ih u h

/-- Unfolding equation of `markdownImageMatch` on a cons cell. -/
theorem markdownImageMatch_cons (c : Char) (rest : Chars) :
    markdownImageMatch (c :: rest) =
      if c == '!' && rest.head? == some '[' then
        match mdGapScan (rest.drop 1) with
        | some u => some u
        | none => markdownImageMatch rest
      else markdownImageMatch rest := rfl

/-- The markdown image capture starts with `https://` or `http://`. -/
theorem markdownImageMatch_pref : ∀ (s u : Chars), markdownImageMatch s = some u →
    startsWithL u httpsPre = true ∨ startsWithL u httpPre = true := by
  intro s
  induction s with
  | nil => intro u h; cases h
  | cons c rest ih =>
    intro u h
    rw [markdownImageMatch_cons] at h
    by_cases h1 : (c == '!' && rest.head? == some '[') = true
    · rw [if_pos h1] at h
      cases h2 : mdGapScan (rest.drop 1) with
      | some u' =>
        rw [h2] at h
        injection h with hu
        subst hu
        exact mdGapScan_pref _ u' h2
      | none =>
        rw [h2] at h
        exact ih u h
    · rw [if_neg h1] at h
      exact ih u h

/-- A bare-URL capture case-insensitively starts with the tried prefix. -/
theorem urlTryPre_prefixCI (pre s u : Chars) (h : urlTryPre pre s = some u) :
    startsWithCI u pre = true := by
  unfold urlTryPre at h
  by_cases h1 : startsWithCI s pre = true
  · rw [if_pos h1] at h
    by_cases h2 : urlRunSplit ((s.drop pre.length).takeWhile urlChar) = true
    · rw [if_pos h2] at h
      injection h with hu
      subst hu
      unfold startsWithCI toLowerL at h1 ⊢
      rw [List.map_append]
      have htake : (s.take pre.length).map jsToLowerChar =
          (s.map jsToLowerChar).take (pre.map jsToLowerChar).length := by
        rw [List.map_take, List.length_map]
      rw [htake]
      have hp := (startsWithL_iff_pref _ _).mp h1
      rw [List.prefix_iff_eq_take] at hp
      rw [← hp]
      exact startsWithL_append _ _
    · rw [if_neg h2] at h; cases h
  · rw [if_neg h1] at h; cases h

/-- A bare-URL match case-insensitively starts with `https://` or `http://`. -/
theorem urlMatchTry_prefixCI (s u : Chars) (h : urlMatchTry s = some u) :
    startsWithCI u httpsPre = true ∨ startsWithCI u httpPre = true := by
  unfold urlMatchTry at h
  cases h1 : urlTryPre httpsPre s with
  | some u' =>
    rw [h1] at h
    injection h with hu
    subst hu
    exact Or.inl (urlTryPre_prefixCI httpsPre s u' h1)
  | none =>
    rw [h1] at h
    exact Or.inr (urlTryPre_prefixCI httpPre s u h)

/-- The whole-content bare-URL capture case-insensitively starts with
`https://` or `http://`. -/
theorem imageUrlMatch_prefixCI : ∀ (s u : Chars), imageUrlMatch s = some u →
    startsWithCI u httpsPre = true ∨ startsWithCI u httpPre = true := by
  intro s
  induction s with
  | nil => intro u h; cases h
  | cons c rest ih =>
    intro u h
    rw [show imageUrlMatch (c :: rest) =
        (match urlMatchTry (c :: rest) with
         | some u => some u
         | none => imageUrlMatch rest) from rfl] at h
    cases h1 : urlMatchTry (c :: rest) with
    | some u' =>
      rw [h1] at h
      injection h with hu
      subst hu
      exact urlMatchTry_prefixCI _ u' h1
    | none =>
      rw [h1] at h
      exact ih u h

/-- Any b64PngPrefix-wrapped string is a data: URI. -/
theorem goodImageRef_b64 (s : String) : goodImageRef (JValue.str (b64PngPrefix ++ s)) := by
  refine ⟨b64PngPrefix ++ s, rfl, ?_⟩
  have hg : startsWithL (b64PngPrefix ++ s).data dataPre = true := by
    rw [String.data_append]
    exact startsWithL_append_of_pref dataPre b64PngPrefix.data _ (by decide)
  rw [hg]
  simp

/-- The string-content probes only return scheme-prefixed strings. -/
theorem chatContentString_good (cs : Chars) (v : JValue)
    (h : chatContentString cs = .ok (some v)) : goodImageRef v := by
  unfold chatContentString at h
  by_cases h1 : (startsWithL cs httpPre || startsWithL cs httpsPre) = true
  · rw [if_pos h1] at h
    injection h with hv
    injection hv with hv2
    subst hv2
    refine ⟨String.mk (trimL cs), rfl, ?_⟩
    show (startsWithCI (trimL cs) httpPre || startsWithCI (trimL cs) httpsPre ||
      startsWithL (trimL cs) dataPre) = true
    rw [Bool.or_eq_true] at h1
    rcases h1 with hh | hh
    · have hg := startsWithCI_of_startsWithL _ _
        (startsWithL_trimL cs httpPre (by decide) (by decide) hh)
      simp [hg]
    · have hg := startsWithCI_of_startsWithL _ _
        (startsWithL_trimL cs httpsPre (by decide) (by decide) hh)
      simp [hg]
  · rw [if_neg h1] at h
    by_cases h2 : startsWithL cs dataImagePre = true
    · rw [if_pos h2] at h
      injection h with hv
      injection hv with hv2
      subst hv2
      refine ⟨String.mk (trimL cs), rfl, ?_⟩
      show (startsWithCI (trimL cs) httpPre || startsWithCI (trimL cs) httpsPre ||
        startsWithL (trimL cs) dataPre) = true
      have hg := startsWithL_weaken _ _ dataPre (by decide)
        (startsWithL_trimL cs dataImagePre (by decide) (by decide) h2)
      simp [hg]
    · rw [if_neg h2] at h
      cases hm : markdownImageMatch cs with
      | some u =>
        rw [hm] at h
        injection h with hv
        injection hv with hv2
        subst hv2
        refine ⟨String.mk u, rfl, ?_⟩
        show (startsWithCI u httpPre || startsWithCI u httpsPre ||
          startsWithL u dataPre) = true
        rcases markdownImageMatch_pref cs u hm with hh | hh
        · have hg := startsWithCI_of_startsWithL _ _ hh
          simp [hg]
        · have hg := startsWithCI_of_startsWithL _ _ hh
          simp [hg]
      | none =>
        rw [hm] at h
        cases hu : imageUrlMatch cs with
        | some u =>
          rw [hu] at h
          injection h with hv
          injection hv with hv2
          subst hv2
          refine ⟨String.mk u, rfl, ?_⟩
          show (startsWithCI u httpPre || startsWithCI u httpsPre ||
            startsWithL u dataPre) = true
          rcases imageUrlMatch_prefixCI cs u hu with hh | hh
          · simp [hh]
          · simp [hh]
        | none =>
          rw [hu] at h
          by_cases h3 : looksBase64Long cs = true
          · rw [if_pos h3] at h
            injection h with hv
            injection hv with hv2
            subst hv2
            exact goodImageRef_b64 (String.mk (trimL cs))
          · rw [if_neg h3] at h
            injection h with hv
            cases hv

/-- The per-choice content probe only returns scheme-prefixed strings. -/
theorem chatChoiceContentProbe_good (choice v : JValue)
    (h : chatChoiceContentProbe choice = .ok (some v)) : goodImageRef v := by
  unfold chatChoiceContentProbe at h
  by_cases h1 : jsTruthy (choiceContent choice) = true
  · rw [if_pos h1] at h
    cases hcc : choiceContent choice with
    | none => rw [hcc] at h; cases h
    | some cv =>
      rw [hcc] at h
      cases cv with
      | str s => exact chatContentString_good s.data v h
      | null => cases h
      | bool b => cases h
      | num q => cases h
      | arr xs => cases h
      | obj fs => cases h
  · rw [if_neg h1] at h
    injection h with hv
    cases hv

/-- The chat-completions probe only returns scheme-prefixed strings. -/
theorem chatContentProbe_good (data v : JValue)
    (h : chatContentProbe data = .ok (some v)) : goodImageRef v := by
  unfold chatContentProbe at h
  by_cases h1 : (jsTruthy (jsGetField data "choices") &&
      jsTruthy (jsIndex0 (jsGetField data "choices"))) = true
  · rw [if_pos h1] at h
    cases h0 : jsIndex0 (jsGetField data "choices") with
    | none =>
      rw [h0] at h
      injection h with hv
      cases hv
    | some choice =>
      rw [h0] at h
      exact chatChoiceContentProbe_good choice v h
  · rw [if_neg h1] at h
    injection h with hv
    cases hv

/-- The trailing probes return scheme-prefixed strings or pass-through
field values. -/
theorem restProbe_spec (data v : JValue) (h : restProbe data = .ok v) :
    goodImageRef v ∨ passThroughVal data v := by
  unfold restProbe at h
  by_cases h1 : jsTruthy (jsGetField data "url") = true
  · rw [if_pos h1] at h
    obtain ⟨x, hx, hg⟩ := jsTruthy_some _ h1
    injection h with hv
    exact Or.inr (Or.inr (Or.inl (by rw [hx, show x = v from hg.symm.trans hv])))
  · rw [if_neg h1] at h
    by_cases h2 : jsTruthy (jsGetField data "image_url") = true
    · rw [if_pos h2] at h
      obtain ⟨x, hx, hg⟩ := jsTruthy_some _ h2
      injection h with hv
      exact Or.inr (Or.inr (Or.inr (Or.inl (by rw [hx, show x = v from hg.symm.trans hv]))))
    · rw [if_neg h2] at h
      by_cases h3 : jsTruthy (jsGetField data "output") = true
      · rw [if_pos h3] at h
        obtain ⟨x, hx, hg⟩ := jsTruthy_some _ h3
        injection h with hv
        exact Or.inr (Or.inr (Or.inr (Or.inr (by
          rw [hx, show x = v from hg.symm.trans hv]))))
      · rw [if_neg h3] at h
        by_cases h4 : jsTruthy (jsGetField data "b64_json") = true
        · rw [if_pos h4] at h
          injection h with hv
          subst hv
          exact Or.inl (goodImageRef_b64 _)
        · rw [if_neg h4] at h
          by_cases h5 : jsTruthy (jsGetField data "image") = true
          · rw [if_pos h5] at h
            cases him : jsGetField data "image" with
            | none => rw [him] at h5; simp [jsTruthy] at h5
            | some iv =>
              rw [him] at h
              cases iv with
              | str s =>
                replace h : (if startsWithL s.data dataPre then
                    (Except.ok (JValue.str s) : Except String JValue)
                  else Except.ok (JValue.str (b64PngPrefix ++ s))) = Except.ok v := h
                by_cases h6 : startsWithL s.data dataPre = true
                · rw [if_pos h6] at h
                  injection h with hv
                  subst hv
                  exact Or.inl ⟨s, rfl, by simp [h6]⟩
                · rw [if_neg h6] at h
                  injection h with hv
                  subst hv
                  exact Or.inl (goodImageRef_b64 s)
              | null => cases h
              | bool b => cases h
              | num q => cases h
              | arr xs => cases h
              | obj fs => cases h
          · rw [if_neg h5] at h
            by_cases h7 : jsTruthy (jsGetField data "base64") = true
            · rw [if_pos h7] at h
              injection h with hv
              subst hv
              exact Or.inl (goodImageRef_b64 _)
            · rw [if_neg h7] at h
              cases h

/-- The image-array probe returns scheme-prefixed strings or pass-through
field values. -/
theorem dataArrayProbe_spec (data v : JValue) (h : dataArrayProbe data = .ok v) :
    goodImageRef v ∨ passThroughVal data v := by
  unfold dataArrayProbe at h
  by_cases h1 : (jsTruthy (jsGetField data "data") &&
      jsTruthy (jsIndex0 (jsGetField data "data"))) = true
  · rw [if_pos h1] at h
    cases h0 : jsIndex0 (jsGetField data "data") with
    | none =>
      rw [h0] at h
      exact restProbe_spec data v h
    | some imageData =>
      rw [h0] at h
      replace h : (if jsTruthy (jsGetField imageData "url") then
          (Except.ok ((jsGetField imageData "url").getD JValue.null) : Except String JValue)
        else if jsTruthy (jsGetField imageData "b64_json") then
          Except.ok (JValue.str (b64PngPrefix ++
            jsToString ((jsGetField imageData "b64_json").getD JValue.null)))
        else restProbe data) = Except.ok v := h
      by_cases h2 : jsTruthy (jsGetField imageData "url") = true
      · rw [if_pos h2] at h
        obtain ⟨x, hx, hg⟩ := jsTruthy_some _ h2
        injection h with hv
        exact Or.inr (Or.inl ⟨imageData, h0,
          by rw [hx, show x = v from hg.symm.trans hv]⟩)
      · rw [if_neg h2] at h
        by_cases h3 : jsTruthy (jsGetField imageData "b64_json") = true
        · rw [if_pos h3] at h
          injection h with hv
          subst hv
          exact Or.inl (goodImageRef_b64 _)
        · rw [if_neg h3] at h
          exact restProbe_spec data v h
  · rw [if_neg h1] at h
    exact restProbe_spec data v h

/-- The whole JSON cascade returns scheme-prefixed strings or pass-through
field values. -/
theorem jsonShapeProbe_spec (data v : JValue) (h : jsonShapeProbe data = .ok v) :
    goodImageRef v ∨ passThroughVal data v := by
  unfold jsonShapeProbe at h
  cases hc : chatContentProbe data with
  | error e => rw [hc] at h; cases h
  | ok o =>
    cases o with
    | some v0 =>
      rw [hc] at h
      injection h with hv
      subst hv
      exact Or.inl (chatContentProbe_good data v0 hc)
    | none =>
      rw [hc] at h
      exact dataArrayProbe_spec data v h

/-- C2 (corrected): the original guarantee — every success is a well-formed
URL or a `data:image/...;base64,...` string, never a bare base64 blob — is
refuted by `c2_counterexample` (a bare blob passes through `url`).  Amended:
every successful result of the response normalizer is either a string
bearing a recognizable scheme prefix (`http://` or `https://`
case-insensitively, or `data:` — in particular every base64 wrap carries
`data:image/png;base64,`), or the verbatim, unvalidated value of a
provider-supplied URL field (`data[0].url`, `url`, `image_url`, `output`)
of the parsed body. -/
theorem c2_amended_response_normalizer (parseJson : Chars → Option JValue)
    (body : Chars) (v : JValue)
    (h : parseImageResponse parseJson body = .ok v) :
    goodImageRef v ∨
      ∃ data, parseJson (extractJsonText body) = some data ∧ passThroughVal data v := by
  unfold parseImageResponse at h
  cases hp : parseJson (extractJsonText body) with
  | none =>
    rw [hp] at h
    replace h : (if startsWithL body httpPre || startsWithL body httpsPre then
        (Except.ok (JValue.str (String.mk (trimL body))) : Except String JValue)
      else if startsWithL body dataImagePre then
        Except.ok (JValue.str (String.mk (trimL body)))
      else if looksBase64Prefix body then
        Except.ok (JValue.str (b64PngPrefix ++ String.mk (trimL body)))
      else Except.error ("Invalid response format: " ++
        String.mk (body.take 100))) = Except.ok v := h
    left
    by_cases h1 : (startsWithL body httpPre || startsWithL body httpsPre) = true
    · rw [if_pos h1] at h
      injection h with hv
      subst hv
      refine ⟨String.mk (trimL body), rfl, ?_⟩
      show (startsWithCI (trimL body) httpPre || startsWithCI (trimL body) httpsPre ||
        startsWithL (trimL body) dataPre) = true
      rw [Bool.or_eq_true] at h1
      rcases h1 with hh | hh
      · have hg := startsWithCI_of_startsWithL _ _
          (startsWithL_trimL body httpPre (by decide) (by decide) hh)
        simp [hg]
      · have hg := startsWithCI_of_startsWithL _ _
          (startsWithL_trimL body httpsPre (by decide) (by decide) hh)
        simp [hg]
    · rw [if_neg h1] at h
      by_cases h2 : startsWithL body dataImagePre = true
      · rw [if_pos h2] at h
        injection h with hv
        subst hv
        refine ⟨String.mk (trimL body), rfl, ?_⟩
        show (startsWithCI (trimL body) httpPre || startsWithCI (trimL body) httpsPre ||
          startsWithL (trimL body) dataPre) = true
        have hg := startsWithL_weaken _ _ dataPre (by decide)
          (startsWithL_trimL body dataImagePre (by decide) (by decide) h2)
        simp [hg]
      · rw [if_neg h2] at h
        by_cases h3 : looksBase64Prefix body = true
        · rw [if_pos h3] at h
          injection h with hv
          subst hv
          exact goodImageRef_b64 (String.mk (trimL body))
        · rw [if_neg h3] at h
          exact Except.noConfusion h
  | some data =>
    rw [hp] at h
    cases data with
    | null => exact Except.noConfusion h
    | bool b =>
      replace h : jsonShapeProbe (JValue.bool b) = Except.ok v := h
      rcases jsonShapeProbe_spec _ v h with hg | hpt
      · exact Or.inl hg
      · exact Or.inr ⟨JValue.bool b, rfl, hpt⟩
    | num q =>
      replace h : jsonShapeProbe (JValue.num q) = Except.ok v := h
      rcases jsonShapeProbe_spec _ v h with hg | hpt
      · exact Or.inl hg
      · exact Or.inr ⟨JValue.num q, rfl, hpt⟩
    | str s =>
      replace h : jsonShapeProbe (JValue.str s) = Except.ok v := h
      rcases jsonShapeProbe_spec _ v h with hg | hpt
      · exact Or.inl hg
      · exact Or.inr ⟨JValue.str s, rfl, hpt⟩
    | arr xs =>
      replace h : jsonShapeProbe (JValue.arr xs) = Except.ok v := h
      rcases jsonShapeProbe_spec _ v h with hg | hpt
      · exact Or.inl hg
      · exact Or.inr ⟨JValue.arr xs, rfl, hpt⟩
    | obj fs =>
      replace h : jsonShapeProbe (JValue.obj fs) = Except.ok v := h
      rcases jsonShapeProbe_spec _ v h with hg | hpt
      · exact Or.inl hg
      · exact Or.inr ⟨JValue.obj fs, rfl, hpt⟩

set_option maxRecDepth 40000 in
/-- C2 counterexample: on the body `\x7b"url":"QUJDREVGRw=="\x7d` (with its
actual JSON.parse result) the normalizer succeeds with the bare string
`QUJDREVGRw==`, which bears no scheme prefix, contains no colon at all, and
consists entirely of base64-alphabet characters — a bare base64 blob
without a mime prefix, passed through the `url` field verbatim. -/
theorem c2_counterexample :
    parseImageResponse parseUrlOnly "\x7b\"url\":\"QUJDREVGRw==\"\x7d".data =
      .ok (.str "QUJDREVGRw==") ∧
    (startsWithCI "QUJDREVGRw==".data httpPre ||
      startsWithCI "QUJDREVGRw==".data httpsPre ||
      startsWithL "QUJDREVGRw==".data dataPre) = false ∧
    "QUJDREVGRw==".data.contains ':' = false ∧
    "QUJDREVGRw==".data.all b64Char = true ∧
    "QUJDREVGRw==".data ≠ [] := by
  refine ⟨?_, by decide, by decide, by decide, by decide⟩
  rfl

set_option maxRecDepth 40000 in
/-- Witness for the amended C2 theorem at a concrete input: the body
`\x7b"b64_json":"QUJD"\x7d` normalizes to the wrapped
`data:image/png;base64,QUJD`, which the theorem classifies. -/
theorem c2_witness :
    goodImageRef (JValue.str (b64PngPrefix ++ "QUJD")) ∨
      ∃ data, parseB64Only (extractJsonText "\x7b\"b64_json\":\"QUJD\"\x7d".data) =
          some data ∧
        passThroughVal data (JValue.str (b64PngPrefix ++ "QUJD")) :=
  c2_amended_response_normalizer parseB64Only "\x7b\"b64_json\":\"QUJD\"\x7d".data
    (JValue.str (b64PngPrefix ++ "QUJD")) (by rfl)
